import Mathlib

/-!
# Cognitive Book OS — Claim Provenance Ledger and Multi-Source Orchestrator

A shallow embedding, in Lean 4, of the claim lifecycle store
(`src/cognitive_book_os/claim_store.py`) and the multi-brain query
orchestrator (`src/cognitive_book_os/orchestration.py`) of the
`cognitive-book-os` repository, together with proofs about the embedded
operations.

Modelling conventions:
* Python strings are Lean `String`s; the handful of Python string methods the
  code uses (`strip`, `lower`, `splitlines`, `split`, `startswith`, slicing)
  are re-implemented below on `List Char`, restricted to their ASCII
  behaviour (all text handled by the repository's heuristics is ASCII).
* `hashlib.sha256` is implemented in full (FIPS 180-4) so that claim ids are
  computed exactly as the program computes them.
* Wall-clock reads (`datetime.now()`) become explicit `now`/`stamp`
  parameters; a single operation passes the same timestamp to each of its
  internal clock reads.
* Python `float` is modelled as `ℚ`; `round(x, 4)` is modelled by rounding to
  the nearest multiple of 1/10000 with ties going to the even multiple,
  matching Python's round-half-to-even.
* The mutable on-disk state of one knowledge base is threaded explicitly: the
  materialized claims document is an insertion-ordered association list (the
  Python `dict`), and the append-only event log is the list of events an
  operation appends.
* `raise` after the snapshot write is modelled by an `error?` field carried
  alongside the already-persisted state, mirroring the code's
  write-before-raise order.
-/

namespace CBOS

set_option maxRecDepth 400000

/-! ## Python-style string primitives -/

/-- Python's whitespace set for `str.strip()` / `str.split()` / `\s`. -/
def isPyWs (c : Char) : Bool :=
  c = ' ' || c = '\t' || c = '\n' || c = '\x0d' || c = '\x0b' || c = '\x0c'

/-- Drop trailing characters satisfying `p`. -/
def dropTrailing (p : Char → Bool) (cs : List Char) : List Char :=
  (cs.reverse.dropWhile p).reverse

/-- Python `str.strip()` on a character list. -/
def pyStripList (cs : List Char) : List Char :=
  dropTrailing isPyWs (cs.dropWhile isPyWs)

/-- Python `str.strip()`. -/
def pyStrip (s : String) : String := String.mk (pyStripList s.toList)

/-- Python `str.strip(chars)`: strip any of the given characters from both ends. -/
def pyStripChars (chars : List Char) (s : String) : String :=
  String.mk (dropTrailing (· ∈ chars) (s.toList.dropWhile (· ∈ chars)))

/-- Python `str.lstrip(chars)`. -/
def pyLStripChars (chars : List Char) (s : String) : String :=
  String.mk (s.toList.dropWhile (· ∈ chars))

/-- ASCII lower-casing of one character (the fragment of Python `str.lower()`
the repository's inputs exercise). -/
def asciiLower (c : Char) : Char :=
  if 'A' ≤ c ∧ c ≤ 'Z' then Char.ofNat (c.toNat + 32) else c

/-- Python `str.lower()` (ASCII fragment). -/
def pyLower (s : String) : String := String.mk (s.toList.map asciiLower)

/-- Python `str.startswith(p)`. -/
def pyStartsWith (s p : String) : Bool := p.toList.isPrefixOf s.toList

/-- Python `needle in hay` substring test. -/
def strContains (hay needle : String) : Bool :=
  hay.toList.tails.any (fun t => needle.toList.isPrefixOf t)

/-- Python `s[:n]` character slicing from the left. -/
def pyTake (n : Nat) (s : String) : String := String.mk (s.toList.take n)

def splitlinesAux : List Char → List Char → List (List Char)
  | [], cur => if cur.isEmpty then [] else [cur]
  | '\x0d' :: '\n' :: rest, cur => cur :: splitlinesAux rest []
  | '\n' :: rest, cur => cur :: splitlinesAux rest []
  | '\x0d' :: rest, cur => cur :: splitlinesAux rest []
  | c :: rest, cur => splitlinesAux rest (cur ++ [c])

/-- Python `str.splitlines()` (for the `\n`/`\r\n`/`\r` terminators). -/
def pySplitlines (s : String) : List String :=
  (splitlinesAux s.toList []).map String.mk

/-- First occurrence of (non-empty) `sep` in `cs`, as `(before, after)`. -/
def findSub (sep : List Char) : List Char → Option (List Char × List Char)
  | [] => if sep.isEmpty then some ([], []) else none
  | c :: rest =>
      if sep.isPrefixOf (c :: rest) then some ([], (c :: rest).drop sep.length)
      else ((findSub sep rest).map (fun pr => (c :: pr.1, pr.2)))

def pySplitAux (sep : List Char) : Nat → List Char → List (List Char)
  | 0, cs => [cs]
  | n + 1, cs =>
      match findSub sep cs with
      | none => [cs]
      | some (pre, post) => pre :: pySplitAux sep n post

/-- Python `str.split(sep, maxsplit)` for a non-empty separator. -/
def pySplit (s sep : String) (maxsplit : Nat) : List String :=
  (pySplitAux sep.toList maxsplit s.toList).map String.mk

/-- Python `str.split()` — whitespace-run splitting with no empty pieces. -/
def pyWords (s : String) : List String :=
  ((s.toList.splitOnP (fun c => isPyWs c)).filter (fun w => ¬ w.isEmpty)).map String.mk

/-- `re.sub(r"\s+", " ", ·)`: collapse every whitespace run to one space. -/
def collapseWsAux : Nat → List Char → List Char
  | 0, cs => cs
  | _, [] => []
  | fuel + 1, c :: rest =>
      if isPyWs c then ' ' :: collapseWsAux fuel (rest.dropWhile isPyWs)
      else c :: collapseWsAux fuel rest

/-- `_normalize_text`: strip, lower-case, collapse internal whitespace. -/
def normalizeText (s : String) : String :=
  let cs := pyStripList (pyLower s).toList
  String.mk (collapseWsAux cs.length cs)

/-! ## SHA-256 (FIPS 180-4), the implementation behind `hashlib.sha256` -/

def w32 (n : Nat) : Nat := n % 4294967296

def rotr (n w : Nat) : Nat := w32 ((w >>> n) ||| (w <<< (32 - n)))

def bnot32 (x : Nat) : Nat := x ^^^ 4294967295

def ssig0 (w : Nat) : Nat := (rotr 7 w) ^^^ (rotr 18 w) ^^^ (w >>> 3)
def ssig1 (w : Nat) : Nat := (rotr 17 w) ^^^ (rotr 19 w) ^^^ (w >>> 10)
def bsig0 (w : Nat) : Nat := (rotr 2 w) ^^^ (rotr 13 w) ^^^ (rotr 22 w)
def bsig1 (w : Nat) : Nat := (rotr 6 w) ^^^ (rotr 11 w) ^^^ (rotr 25 w)
def chFn (x y z : Nat) : Nat := (x &&& y) ^^^ ((bnot32 x) &&& z)
def majFn (x y z : Nat) : Nat := (x &&& y) ^^^ (x &&& z) ^^^ (y &&& z)

def shaK : List Nat :=
  [1116352408, 1899447441, 3049323471, 3921009573, 961987163, 1508970993,
   2453635748, 2870763221, 3624381080, 310598401, 607225278, 1426881987,
   1925078388, 2162078206, 2614888103, 3248222580, 3835390401, 4022224774,
   264347078, 604807628, 770255983, 1249150122, 1555081692, 1996064986,
   2554220882, 2821834349, 2952996808, 3210313671, 3336571891, 3584528711,
   113926993, 338241895, 666307205, 773529912, 1294757372, 1396182291,
   1695183700, 1986661051, 2177026350, 2456956037, 2730485921, 2820302411,
   3259730800, 3345764771, 3516065817, 3600352804, 4094571909, 275423344,
   430227734, 506948616, 659060556, 883997877, 958139571, 1322822218,
   1537002063, 1747873779, 1955562222, 2024104815, 2227730452, 2361852424,
   2428436474, 2756734187, 3204031479, 3329325298]

def shaH0 : List Nat :=
  [0x6a09e667, 0xbb67ae85, 0x3c6ef372, 0xa54ff53a, 0x510e527f, 0x9b05688c, 0x1f83d9ab, 0x5be0cd19]

def toBytesBE (width n : Nat) : List Nat :=
  (List.range width).map (fun i => (n >>> (8 * (width - 1 - i))) &&& 255)

def padMessage (bytes : List Nat) : List Nat :=
  let len := bytes.length
  let k := (119 - (len % 64)) % 64
  bytes ++ [0x80] ++ List.replicate k 0 ++ toBytesBE 8 (8 * len)

def bytesToWords : List Nat → List Nat
  | b0 :: b1 :: b2 :: b3 :: rest =>
      (((b0 <<< 8 ||| b1) <<< 8 ||| b2) <<< 8 ||| b3) :: bytesToWords rest
  | _ => []

def chunk64Aux : Nat → List Nat → List (List Nat)
  | _, [] => []
  | 0, _ => []
  | fuel + 1, xs => xs.take 64 :: chunk64Aux fuel (xs.drop 64)

def chunk64 (xs : List Nat) : List (List Nat) := chunk64Aux xs.length xs

def schedule (block : List Nat) : List Nat :=
  (List.range 48).foldl
    (fun w i =>
      w ++ [w32 (ssig1 (w.getD (i + 14) 0) + w.getD (i + 9) 0 +
                 ssig0 (w.getD (i + 1) 0) + w.getD i 0)])
    block

structure ShaState where
  a : Nat
  b : Nat
  c : Nat
  d : Nat
  e : Nat
  f : Nat
  g : Nat
  h : Nat

def compressRound (w : List Nat) (s : ShaState) (i : Nat) : ShaState :=
  let t1 := w32 (s.h + bsig1 s.e + chFn s.e s.f s.g + shaK.getD i 0 + w.getD i 0)
  let t2 := w32 (bsig0 s.a + majFn s.a s.b s.c)
  ⟨w32 (t1 + t2), s.a, s.b, s.c, w32 (s.d + t1), s.e, s.f, s.g⟩

def processBlock (hs : List Nat) (block : List Nat) : List Nat :=
  let w := schedule block
  let s0 : ShaState := ⟨hs.getD 0 0, hs.getD 1 0, hs.getD 2 0, hs.getD 3 0,
                        hs.getD 4 0, hs.getD 5 0, hs.getD 6 0, hs.getD 7 0⟩
  let s := (List.range 64).foldl (compressRound w) s0
  [w32 (hs.getD 0 0 + s.a), w32 (hs.getD 1 0 + s.b), w32 (hs.getD 2 0 + s.c),
   w32 (hs.getD 3 0 + s.d), w32 (hs.getD 4 0 + s.e), w32 (hs.getD 5 0 + s.f),
   w32 (hs.getD 6 0 + s.g), w32 (hs.getD 7 0 + s.h)]

def sha256Words (bytes : List Nat) : List Nat :=
  ((chunk64 (padMessage bytes)).map bytesToWords).foldl processBlock shaH0

def hexDigit (n : Nat) : Char :=
  if n < 10 then Char.ofNat (48 + n) else Char.ofNat (87 + n)

def wordToHex (w : Nat) : List Char :=
  (List.range 8).map (fun i => hexDigit ((w >>> (28 - 4 * i)) &&& 15))

/-- UTF-8 encoding of one character (`str.encode("utf-8")`). -/
def utf8Char (c : Char) : List Nat :=
  let n := c.toNat
  if n < 0x80 then [n]
  else if n < 0x800 then [0xC0 ||| (n >>> 6), 0x80 ||| (n &&& 0x3F)]
  else if n < 0x10000 then
    [0xE0 ||| (n >>> 12), 0x80 ||| ((n >>> 6) &&& 0x3F), 0x80 ||| (n &&& 0x3F)]
  else
    [0xF0 ||| (n >>> 18), 0x80 ||| ((n >>> 12) &&& 0x3F), 0x80 ||| ((n >>> 6) &&& 0x3F),
     0x80 ||| (n &&& 0x3F)]

def utf8Bytes (s : String) : List Nat := s.toList.flatMap utf8Char

/-- `hashlib.sha256(...).hexdigest()`. -/
def sha256Hex (s : String) : String :=
  String.mk ((sha256Words (utf8Bytes s)).flatMap wordToHex)

/-- `_make_short_hash`: normalize each part, join with `"|"`, sha256, first 12
hex characters. -/
def makeShortHash (parts : List String) : String :=
  pyTake 12 (sha256Hex (String.intercalate "|" (parts.map normalizeText)))

/-- SHA-256 sanity check against the FIPS 180-4 test vector. -/
theorem sha256Hex_abc :
    sha256Hex "abc" = "ba7816bf8f01cfea414140de5dae2223b00361a396177a9cb410ff61f20015ad" := by
  rfl

/-! ## Data model (`models.py`) -/

/-- `ClaimStatus` — lifecycle status for a claim snapshot. -/
inductive ClaimStatus where
  | active
  | superseded
  | deleted
deriving DecidableEq

/-- `Confidence` — confidence level for extracted information. -/
inductive Confidence where
  | high
  | medium
  | low
  | uncertain
  | none
deriving DecidableEq

/-- The `.value` string of a `Confidence` member. -/
def Confidence.value : Confidence → String
  | .high => "high"
  | .medium => "medium"
  | .low => "low"
  | .uncertain => "uncertain"
  | .none => "none"

/-- `ClaimSnapshot` — latest materialized state for a claim. -/
structure ClaimSnapshot where
  claim_id : String
  revision_id : String
  status : ClaimStatus
  brain_name : String
  file_path : String
  claim_text : String
  evidence_quote : String
  source_locator : String
  confidence : Confidence
  tags : List String
  related_claim_ids : List String
  created_at : String
  updated_at : String
  created_by_run : String
  updated_by_run : String
  supersedes_revision_id : Option String
  user_override : Bool
deriving DecidableEq

/-- A JSON-payload value appearing in an event's free-form `payload` dict. -/
inductive PayloadVal where
  | str (v : String)
  | boolean (v : Bool)
deriving DecidableEq

/-- `ClaimEvent` — append-only event for claim lifecycle/audit. -/
structure ClaimEvent where
  event_id : String
  event_type : String
  timestamp : String
  brain_name : String
  run_id : String
  claim_id : Option String
  revision_id : Option String
  file_path : Option String
  payload : List (String × PayloadVal)
deriving DecidableEq

/-- `QueryResult` — result of answering a query against the brain. -/
structure QueryResult where
  answer : String
  sources : List String
  confidence : Confidence
deriving DecidableEq

/-- `ClaimTraceItem` — claim-level evidence used in a query answer. -/
structure ClaimTraceItem where
  claim_id : String
  file_path : String
  claim_text : String
  evidence_quote : String
  source_locator : String
  confidence : Confidence
  user_override : Bool
deriving DecidableEq

/-- `QueryTraceCompleteness` — coverage summary for claim traceability.
Python floats are modelled as exact rationals. -/
structure QueryTraceCompleteness where
  total_statements : Nat
  linked_statements : Nat
  completeness_ratio : ℚ
deriving DecidableEq

/-- `QueryAuditResult` — audited query result with claim-level traceability. -/
structure QueryAuditResult where
  answer : String
  sources : List String
  confidence : Confidence
  claim_trace : List ClaimTraceItem
  trace_completeness : QueryTraceCompleteness
  query_run_id : String
deriving DecidableEq

/-- `PerBrainResult` — per-brain section in a multi-brain query response. -/
structure PerBrainResult where
  brain_name : String
  answer_excerpt : String
  confidence : Confidence
  sources : List String
  claim_trace : List ClaimTraceItem
  trace_degraded : Bool
  trace_completeness_ratio : ℚ
deriving DecidableEq

/-- `ConflictItem` — cross-brain claim comparison result. -/
structure ConflictItem where
  topic : String
  brains_involved : List String
  classification : String
  evidence : List String
deriving DecidableEq

/-- `TraceabilitySummary` — aggregate traceability status across brains. -/
structure TraceabilitySummary where
  brains_with_claims : Nat
  brains_without_claims : Nat
  overall_completeness_ratio : ℚ
  degraded_brains : List String
deriving DecidableEq

/-- `MultiBrainQueryResult` — unified response across multiple brains. -/
structure MultiBrainQueryResult where
  answer : String
  confidence : Confidence
  per_brain : List PerBrainResult
  conflicts : List ConflictItem
  sources : List String
  traceability : TraceabilitySummary
  query_run_id : String
  warnings : List String
deriving DecidableEq

/-- `FileSelection` — LLM's selection of relevant files for a query. -/
structure FileSelection where
  files : List String
  reasoning : String
deriving DecidableEq

/-- `_GlobalSynthesis` — internal model for the global synthesis pass. -/
structure GlobalSynthesis where
  answer : String
  confidence : Confidence
deriving DecidableEq

/-- `_ConflictDecision` — internal conflict classification item. -/
structure ConflictDecision where
  pair_id : String
  topic : String
  classification : String
  rationale : String
deriving DecidableEq

/-- `_ConflictDecisionBatch` — internal model for batch classification. -/
structure ConflictDecisionBatch where
  items : List ConflictDecision
deriving DecidableEq

/-- `_InternalPerBrain` — per-brain execution bundle with audit context. -/
structure InternalPerBrain where
  result : PerBrainResult
  claim_trace_for_conflicts : List ClaimTraceItem
deriving DecidableEq

/-- Python `round(x, 4)` on the exact-rational model of floats: round to the
nearest multiple of 1/10000, ties to even. -/
def pyRound4 (q : ℚ) : ℚ :=
  let x := q * 10000
  let f : ℤ := ⌊x⌋
  let r := x - (f : ℚ)
  let n : ℤ :=
    if r < 1 / 2 then f
    else if 1 / 2 < r then f + 1
    else if Even f then f else f + 1
  (n : ℚ) / 10000

/-! ## The materialized claims document as an insertion-ordered dict

`meta/claims_current.json` holds `{"claims": {claim_id: snapshot}}`; a Python
dict is insertion-ordered, updates in place keep the position, and new keys
append.  We model it as an association list with those exact operations. -/

abbrev ClaimDict := List (String × ClaimSnapshot)

/-- Python `dict.get`. -/
def dget {α : Type} (st : List (String × α)) (k : String) : Option α :=
  (st.find? (fun e => e.1 == k)).map (·.2)

/-- Python `dict[k] = v`: update in place if present, else append. -/
def dset {α : Type} : List (String × α) → String → α → List (String × α)
  | [], k, v => [(k, v)]
  | (k', v') :: rest, k, v =>
      if k' = k then (k, v) :: rest else (k', v') :: dset rest k v

/-- The key list of the dict. -/
def dkeys {α : Type} (st : List (String × α)) : List String := st.map Prod.fst

/-- Well-formedness: a Python dict cannot repeat a key. -/
def DictWF {α : Type} (st : List (String × α)) : Prop := (dkeys st).Nodup

instance instDecidableDictWF {α : Type} [DecidableEq α] (st : List (String × α)) :
    Decidable (DictWF st) :=
  inferInstanceAs (Decidable (dkeys st).Nodup)

/-! ## Claim Extractor (`claim_store.py`, pure helpers) -/

/-- A value parsed from the YAML frontmatter block. -/
inductive FmVal where
  | str (v : String)
  | list (vs : List String)
deriving DecidableEq

/-- Python `str.endswith(p)`. -/
def pyEndsWith (s p : String) : Bool := p.toList.isSuffixOf s.toList

/-- Modelled from the spec: `yaml.safe_load` is an external library
collaborator (§1 treats parsing collaborators as out of scope); this models
its behaviour on the flat `key: value` metadata blocks §4.2 describes,
reading one mapping entry per line and `[a, b]` values as lists. -/
def parseYamlLine (line : String) : Option (String × FmVal) :=
  let stripped := pyStrip line
  if stripped = "" then Option.none
  else
    match pySplit stripped ":" 1 with
    | [k, v] =>
        let key := pyStrip k
        let value := pyStrip v
        if pyStartsWith value "[" ∧ pyEndsWith value "]" then
          let inner := String.mk (value.toList.drop 1).dropLast
          some (key, FmVal.list ((pySplitAux [','] inner.toList.length inner.toList).map
            (fun w => pyStrip (String.mk w))))
        else some (key, FmVal.str value)
    | _ => Option.none

/-- Modelled from the spec: the frontmatter mapping produced by
`yaml.safe_load` on a flat metadata block (later duplicate keys override). -/
def yamlSafeLoadModel (s : String) : List (String × FmVal) :=
  (pySplitlines s).filterMap parseYamlLine

/-- Python-dict lookup on the parsed frontmatter (last write wins). -/
def fmGet (fm : List (String × FmVal)) (k : String) : Option FmVal :=
  (fm.reverse.find? (fun e => e.1 == k)).map (·.2)

/-- `str(v)` on a frontmatter value (list rendering abridged; the repository's
frontmatter `source` values are plain strings). -/
def fmValToPyStr : FmVal → String
  | .str s => s
  | .list vs => "[" ++ String.intercalate ", " vs ++ "]"

/-- `_split_frontmatter`. -/
def splitFrontmatter (content : String) : List (String × FmVal) × String :=
  if ¬ pyStartsWith content "---" then ([], content)
  else
    let parts := pySplit content "---" 2
    if parts.length < 3 then ([], content)
    else (yamlSafeLoadModel (parts.getD 1 ""), parts.getD 2 "")

/-- A character matched by the token regex `[a-zA-Z0-9_]`. -/
def isTokChar (c : Char) : Bool :=
  ('a' ≤ c && c ≤ 'z') || ('A' ≤ c && c ≤ 'Z') || ('0' ≤ c && c ≤ '9') || c = '_'

def alnumRunsAux : Nat → List Char → List (List Char)
  | 0, _ => []
  | _, [] => []
  | fuel + 1, c :: rest =>
      if isTokChar c then
        ((c :: rest).takeWhile isTokChar) :: alnumRunsAux fuel ((c :: rest).dropWhile isTokChar)
      else alnumRunsAux fuel rest

/-- Append preserving first occurrences (used to model Python sets / ordered
de-duplication via `dict.fromkeys`). -/
def insertUnique (xs : List String) (x : String) : List String :=
  if x ∈ xs then xs else xs ++ [x]

/-- `_tokenize`: the set of case-folded alphanumeric runs of length ≥ 4,
represented as its first-occurrence list (duplicate-free). -/
def pyTokenize (s : String) : List String :=
  let cs := (pyLower s).toList
  let runs := (alnumRunsAux cs.length cs).map String.mk
  (runs.filter (fun t => 4 ≤ t.length)).foldl insertUnique []

/-- `len(a & b)` for the token sets (both lists duplicate-free). -/
def tokOverlap (a b : List String) : Nat := (a.filter (· ∈ b)).length

/-- Try to match `\(Source:\s*([^)]+)\)` (case-insensitive) at the head of the
character list; returns the raw capture and the characters after the match. -/
def trySourceAt : List Char → Option (String × List Char)
  | '(' :: rest =>
      if (rest.take 7).map asciiLower = "source:".toList then
        let after := rest.drop 7
        let inner := after.takeWhile (· ≠ ')')
        if inner.isEmpty then Option.none
        else if inner.length < after.length then
          some (String.mk inner, after.drop (inner.length + 1))
        else Option.none
      else Option.none
  | _ => Option.none

/-- `source_pattern.search(...)`: capture group of the first match. -/
def findSourceAux : Nat → List Char → Option String
  | 0, _ => Option.none
  | _, [] => Option.none
  | fuel + 1, c :: rest =>
      match trySourceAt (c :: rest) with
      | some (inner, _) => some inner
      | Option.none => findSourceAux fuel rest

/-- `source_pattern.sub("", ...)`: delete every match, left to right. -/
def removeSourceAux : Nat → List Char → List Char
  | 0, cs => cs
  | _, [] => []
  | fuel + 1, c :: rest =>
      match trySourceAt (c :: rest) with
      | some (_, after) => removeSourceAux fuel after
      | Option.none => c :: removeSourceAux fuel rest

/-- One iteration of the `_extract_quotes` loop on an already-stripped line. -/
def extractQuoteLine (stripped : String) : Option (String × String) :=
  if ¬ pyStartsWith stripped ">" then Option.none
  else
    let quoteText0 := pyStrip (pyLStripChars ['>'] stripped)
    let cs := quoteText0.toList
    let res :=
      match findSourceAux cs.length cs with
      | some inner => (pyStrip (String.mk (removeSourceAux cs.length cs)), pyStrip inner)
      | Option.none => (quoteText0, "")
    let quoteText := pyStrip (pyStripChars ['"'] res.1)
    if quoteText ≠ "" then some (quoteText, res.2) else Option.none

/-- `_extract_quotes`. -/
def extractQuotes (body : String) : List (String × String) :=
  (pySplitlines body).filterMap (fun line => extractQuoteLine (pyStrip line))

/-- The tail of a bullet marker: `\s+(.+)$`. -/
def bulletRest (rest : List Char) : Option (List Char) :=
  let ws := rest.takeWhile isPyWs
  let text := rest.dropWhile isPyWs
  if ws.isEmpty ∨ text.isEmpty then Option.none else some text

/-- Match `^(?:-|\*|\d+\.)\s+(.+)$` on a stripped line, returning group 1. -/
def bulletMatch (stripped : String) : Option String :=
  match stripped.toList with
  | '-' :: rest => (bulletRest rest).map String.mk
  | '*' :: rest => (bulletRest rest).map String.mk
  | cs =>
      let ds := cs.takeWhile Char.isDigit
      if ds.isEmpty then Option.none
      else
        match cs.drop ds.length with
        | '.' :: rest => (bulletRest rest).map String.mk
        | _ => Option.none

/-- Python `s.split(":", 1)[-1]`. -/
def splitColon1Last (s : String) : String :=
  match pySplit s ":" 1 with
  | [_, v] => v
  | _ => s

/-- One line of the structured pass of `_extract_claim_lines`
(state: collected claims, current lower-cased section heading). -/
def extractClaimLinesStep (acc : List String × String) (line : String) :
    List String × String :=
  let stripped := pyStrip line
  if stripped = "" then acc
  else if pyStartsWith stripped "#" then
    (acc.1, pyLower (pyStrip (pyLStripChars ['#'] stripped)))
  else
    match bulletMatch stripped with
    | some text0 =>
        let text := pyStrip text0
        if pyStartsWith (pyLower text) "[[" then acc
        else if pyStartsWith acc.2 "related" then acc
        else if 8 ≤ text.length then (acc.1 ++ [text], acc.2) else acc
    | Option.none =>
        if pyStartsWith (pyLower stripped) "**claim**" then
          let claimText := pyStrip (splitColon1Last stripped)
          if 8 ≤ claimText.length then (acc.1 ++ [claimText], acc.2) else acc
        else acc

/-- `re.split(r"(?<=[.!?])\s+", ·)`: split on whitespace runs that follow a
sentence-ending punctuation character. -/
def sentSplitAux : Nat → List Char → List Char → List (List Char)
  | 0, cs, cur => [cur ++ cs]
  | _, [], cur => [cur]
  | fuel + 1, c :: rest, cur =>
      if isPyWs c ∧ (cur.getLast? = some '.' ∨ cur.getLast? = some '!' ∨ cur.getLast? = some '?') then
        cur :: sentSplitAux fuel (rest.dropWhile isPyWs) []
      else sentSplitAux fuel rest (cur ++ [c])

def sentenceSplit (s : String) : List String :=
  (sentSplitAux s.toList.length s.toList []).map String.mk

/-- `_extract_claim_lines`. -/
def extractClaimLines (body : String) : List String :=
  let lines := pySplitlines body
  let claims := (lines.foldl extractClaimLinesStep ([], "")).1
  if ¬ claims.isEmpty then claims.foldl insertUnique []
  else
    let fallbackLines := lines.foldl
      (fun acc line =>
        let stripped := pyStrip line
        if stripped = "" ∨ pyStartsWith stripped "#" ∨ pyStartsWith stripped ">" ∨
            pyStartsWith stripped "-" ∨ pyStartsWith stripped "*" then acc
        else acc ++ sentenceSplit stripped)
      []
    let filtered :=
      (fallbackLines.filter (fun s => 6 ≤ (pyWords (pyStrip s)).length)).map pyStrip
    (filtered.take 5).foldl insertUnique []

/-- `_choose_quote_for_claim`: best token overlap, first quote wins ties. -/
def chooseQuoteForClaim (claimText : String) (quotes : List (String × String)) :
    String × String :=
  if quotes.isEmpty then ("", "")
  else
    let claimTokens := pyTokenize claimText
    let res := quotes.foldl
      (fun (acc : (String × String) × Int) q =>
        let score : Int := tokOverlap claimTokens (pyTokenize q.1)
        if acc.2 < score then (q, score) else acc)
      (("", ""), (-1 : Int))
    res.1

/-- `_safe_confidence` applied to a frontmatter value. -/
def safeConfidence (v : Option FmVal) : Confidence :=
  match v with
  | some (.str s) =>
      match pyLower (pyStrip s) with
      | "high" => .high
      | "medium" => .medium
      | "low" => .low
      | "uncertain" => .uncertain
      | "none" => .none
      | _ => .medium
  | _ => .medium

/-- `ClaimStore._extract_claim_snapshots`: extracted snapshots plus the
provenance warnings collected along the way. -/
def extractClaimSnapshots (brainName filePath content runId now : String) :
    List ClaimSnapshot × List String :=
  let fmBody := splitFrontmatter content
  let sourceDefault :=
    pyStrip (match fmGet fmBody.1 "source" with
             | some v => fmValToPyStr v
             | Option.none => "")
  let tags := match fmGet fmBody.1 "tags" with | some (.list vs) => vs | _ => []
  let confidence := safeConfidence (fmGet fmBody.1 "confidence")
  let quotes := extractQuotes fmBody.2
  let claimLines := extractClaimLines fmBody.2
  let per := claimLines.map (fun claimText =>
    let chosen := chooseQuoteForClaim claimText quotes
    let evidenceQuote := chosen.1
    let sourceLocator :=
      pyStrip (if chosen.2 ≠ "" then chosen.2
               else if sourceDefault ≠ "" then sourceDefault
               else "unknown")
    let ws :=
      (if evidenceQuote = "" then ["Missing direct quote for claim: " ++ pyTake 120 claimText]
       else []) ++
      (if sourceLocator = "unknown" then ["Missing source locator for claim: " ++ pyTake 120 claimText]
       else [])
    let claimId := "clm_" ++ makeShortHash [brainName, filePath, claimText, evidenceQuote, sourceLocator]
    let revisionId := "rev_" ++ makeShortHash [claimId, runId, now]
    (({ claim_id := claimId, revision_id := revisionId, status := .active,
        brain_name := brainName, file_path := filePath, claim_text := claimText,
        evidence_quote := evidenceQuote, source_locator := sourceLocator,
        confidence := confidence, tags := tags, related_claim_ids := [],
        created_at := now, updated_at := now, created_by_run := runId,
        updated_by_run := runId, supersedes_revision_id := Option.none,
        user_override := pyStartsWith filePath "notes/" } : ClaimSnapshot), ws))
  let snapshots := per.map Prod.fst
  let warnings0 := (per.map Prod.snd).flatten
  let warnings :=
    if snapshots.isEmpty then warnings0 ++ ["No claim candidates extracted from file content."]
    else warnings0
  (snapshots, warnings)

/-! ## Stable sorting

Python's `list.sort` is stable; for a total preorder every stable sort agrees,
so we model it with a structurally recursive stable insertion sort (which the
kernel can evaluate). -/

/-- Insert `x` after every already-placed element `y` with `le y x`. -/
def insertStable {α : Type} (le : α → α → Bool) (x : α) : List α → List α
  | [] => [x]
  | y :: ys => if le y x then y :: insertStable le x ys else x :: y :: ys

/-- Stable sort: `le a b` means `a` may stand (weakly) before `b`. -/
def stableSort {α : Type} (le : α → α → Bool) (xs : List α) : List α :=
  xs.foldl (fun acc x => insertStable le x acc) []

/-! ## ClaimStore operations (`claim_store.py`) -/

/-- Reconciliation counts returned by `track_file_claims`. -/
structure TrackCounts where
  created : Nat
  unchanged : Nat
  superseded : Nat
  warnings : Nat
deriving DecidableEq

/-- The outcome of one `track_file_claims` call: the persisted snapshot
document, the events appended to `claims_events.jsonl`, the returned counts,
and the `ValueError` message raised (after persisting) in strict mode. -/
structure TrackResult where
  state : ClaimDict
  events : List ClaimEvent
  counts : TrackCounts
  error : Option String
deriving DecidableEq

/-- Build one `ClaimEvent` as `_emit_event` does. -/
def mkEvent (eventType runId now brainName : String)
    (claimId revisionId filePath : Option String)
    (payload : List (String × PayloadVal)) : ClaimEvent :=
  { event_id := "evt_" ++ makeShortHash [eventType, runId, now, claimId.getD ""],
    event_type := eventType, timestamp := now, brain_name := brainName,
    run_id := runId, claim_id := claimId, revision_id := revisionId,
    file_path := filePath, payload := payload }

/-- The guard `existing and existing.status == ClaimStatus.ACTIVE`. -/
def activeExisting (o : Option ClaimSnapshot) : Option ClaimSnapshot :=
  match o with
  | some ex => if ex.status = ClaimStatus.active then some ex else Option.none
  | Option.none => Option.none

/-- State after the create/refresh loop of `track_file_claims`. -/
structure Phase1Out where
  state : ClaimDict
  created : Nat
  unchanged : Nat
  events : List ClaimEvent
deriving DecidableEq

/-- The `for claim in extracted` loop of `track_file_claims`: refresh an
active claim with the same id in place, otherwise insert the fresh snapshot
and emit a `claim_created` event. -/
def createdLoop (brainName filePath runId now : String) :
    List ClaimSnapshot → ClaimDict → Phase1Out
  | [], st => ⟨st, 0, 0, []⟩
  | claim :: rest, st =>
      match activeExisting (dget st claim.claim_id) with
      | some existing =>
          let refreshed := { claim with
            revision_id := existing.revision_id,
            created_at := existing.created_at,
            created_by_run := existing.created_by_run,
            updated_at := now,
            updated_by_run := runId }
          let r := createdLoop brainName filePath runId now rest (dset st claim.claim_id refreshed)
          ⟨r.state, r.created, r.unchanged + 1, r.events⟩
      | Option.none =>
          let ev := mkEvent "claim_created" runId now brainName
            (some claim.claim_id) (some claim.revision_id) (some filePath)
            [("claim_text", .str claim.claim_text),
             ("source_locator", .str claim.source_locator),
             ("user_override", .boolean claim.user_override)]
          let r := createdLoop brainName filePath runId now rest (dset st claim.claim_id claim)
          ⟨r.state, r.created + 1, r.unchanged, ev :: r.events⟩

/-- State after the supersede loop of `track_file_claims`. -/
structure Phase2Out where
  state : ClaimDict
  superseded : Nat
  events : List ClaimEvent
deriving DecidableEq

/-- The `for old_id, old_claim in active_for_file.items()` loop: every
previously-active claim of the file absent from the new extraction becomes
superseded and a `claim_superseded` event is emitted. -/
def supersedeLoop (brainName filePath runId now : String) (newIds : List String) :
    List (String × ClaimSnapshot) → ClaimDict → Phase2Out
  | [], st => ⟨st, 0, []⟩
  | (oldId, oldClaim) :: rest, st =>
      if oldId ∈ newIds then supersedeLoop brainName filePath runId now newIds rest st
      else
        let updated := { oldClaim with
          status := ClaimStatus.superseded, updated_at := now, updated_by_run := runId }
        let ev := mkEvent "claim_superseded" runId now brainName
          (some oldId) (some oldClaim.revision_id) (some filePath)
          [("reason", .str "not_present_in_latest_file_revision")]
        let r := supersedeLoop brainName filePath runId now newIds rest (dset st oldId updated)
        ⟨r.state, r.superseded + 1, ev :: r.events⟩

/-- The method `ClaimStore.track_file_claims`: reconcile one file's freshly
extracted claims against the snapshot.  The snapshot is persisted before any
strict-mode `ValueError` is raised, so `state` always carries the persisted
document and `error` the raised message (if any). -/
def trackFileClaims (enforcement : String) (st : ClaimDict)
    (brainName filePath content runId now : String) : TrackResult :=
  let activeForFile := st.filter (fun e =>
    e.2.file_path == filePath && e.2.status == ClaimStatus.active)
  let ext := extractClaimSnapshots brainName filePath content runId now
  let newIds := ext.1.map (·.claim_id)
  let p1 := createdLoop brainName filePath runId now ext.1 st
  let p2 := supersedeLoop brainName filePath runId now newIds activeForFile p1.state
  let warningEvents :=
    if enforcement ≠ "off" then
      ext.2.map (fun w => mkEvent "provenance_warning" runId now brainName
        Option.none Option.none (some filePath) [("message", .str w)])
    else []
  let warningCount := if enforcement ≠ "off" then ext.2.length else 0
  { state := p2.state,
    events := p1.events ++ p2.events ++ warningEvents,
    counts := ⟨p1.created, p1.unchanged, p2.superseded, warningCount⟩,
    error := if enforcement = "strict" then ext.2.head? else Option.none }

/-- The method `ClaimStore.list_claims` (filters, most-recently-updated-first
stable sort, offset/limit slice). -/
def listClaims (st : ClaimDict) (filePathQ : Option String)
    (statusQ : Option ClaimStatus) (tagQ : Option String) (q : Option String)
    (limit : Int) (offset : Nat) : List ClaimSnapshot :=
  let claims := st.map (·.2)
  let claims := match filePathQ with
    | some fp => claims.filter (fun c => c.file_path == fp)
    | Option.none => claims
  let claims := match statusQ with
    | some sq => claims.filter (fun c => c.status == sq)
    | Option.none => claims
  let claims := match tagQ with
    | some t => claims.filter (fun c => c.tags.contains t)
    | Option.none => claims
  let claims := match q with
    | some term0 =>
        let term := pyLower term0
        claims.filter (fun c =>
          strContains (pyLower c.claim_text) term || strContains (pyLower c.evidence_quote) term)
    | Option.none => claims
  let sorted := stableSort (fun a b => ! decide (a.updated_at < b.updated_at)) claims
  (sorted.drop offset).take (max limit 0).toNat

/-- Find all matches of the citation regex `\[([^\]]+\.md)\]`. -/
def mdCitationsAux : Nat → List Char → List String
  | 0, _ => []
  | _, [] => []
  | fuel + 1, '[' :: rest =>
      let inner := rest.takeWhile (· ≠ ']')
      if inner.length < rest.length ∧ 4 ≤ inner.length ∧ pyEndsWith (String.mk inner) ".md" then
        String.mk inner :: mdCitationsAux fuel (rest.drop (inner.length + 1))
      else mdCitationsAux fuel rest
  | fuel + 1, _ :: rest => mdCitationsAux fuel rest

/-- The statement-level citation matches `citation_pattern.findall`. -/
def mdCitations (s : String) : List String := mdCitationsAux s.toList.length s.toList

/-- Split on runs of the given separator characters (`re.split("[...]+", ·)`). -/
def splitRunsAux (sepChars : List Char) : Nat → List Char → List Char → List (List Char)
  | 0, cs, cur => [cur ++ cs]
  | _, [], cur => [cur]
  | fuel + 1, c :: rest, cur =>
      if c ∈ sepChars then
        cur :: splitRunsAux sepChars fuel (rest.dropWhile (· ∈ sepChars)) []
      else splitRunsAux sepChars fuel rest (cur ++ [c])

/-- The answer split `re.split(r"[\n.!?]+", answer)` followed by the strip
and non-empty filter of `build_query_audit`. -/
def answerStatements (answer : String) : List String :=
  (((splitRunsAux ['\n', '.', '!', '?'] answer.toList.length answer.toList []).map
    (fun cs => pyStrip (String.mk cs))).filter (fun s => s ≠ ""))

/-- One step of the greedy trace selection (3 per file, no duplicate ids). -/
def selectTraceStep (acc : List ClaimTraceItem × List String × List (String × Nat))
    (sc : Nat × ClaimSnapshot) :
    List ClaimTraceItem × List String × List (String × Nat) :=
  let c := sc.2
  let count := ((dget acc.2.2 c.file_path).getD 0)
  if 3 ≤ count then acc
  else if c.claim_id ∈ acc.2.1 then acc
  else
    (acc.1 ++ [{ claim_id := c.claim_id, file_path := c.file_path,
                 claim_text := c.claim_text, evidence_quote := c.evidence_quote,
                 source_locator := c.source_locator, confidence := c.confidence,
                 user_override := c.user_override }],
     acc.2.1 ++ [c.claim_id],
     dset acc.2.2 c.file_path (count + 1))

/-- The method `ClaimStore.build_query_audit`: trace selection, citation
events, statement linking and the completeness ratio.  Returns the audit
result together with the `claim_cited_in_answer` events appended. -/
def buildQueryAudit (st : ClaimDict) (brainName question : String)
    (result : QueryResult) (defaultSources : List String) (runId now : String) :
    QueryAuditResult × List ClaimEvent :=
  let sources := if result.sources.isEmpty then defaultSources else result.sources
  let activeClaims := (st.map (·.2)).filter (fun c =>
    c.status == ClaimStatus.active && sources.contains c.file_path)
  let questionTokens := pyTokenize question
  let answerTokens := pyTokenize result.answer
  let scored := activeClaims.map (fun c =>
    let claimTokens := pyTokenize (c.claim_text ++ " " ++ c.evidence_quote)
    (tokOverlap claimTokens questionTokens * 2 + tokOverlap claimTokens answerTokens, c))
  let sortedScored := stableSort (fun a b => decide (b.1 ≤ a.1)) scored
  let sel := sortedScored.foldl selectTraceStep ([], [], [])
  let traceItems := sel.1
  let events := traceItems.map (fun item =>
    mkEvent "claim_cited_in_answer" runId now brainName
      (some item.claim_id) Option.none (some item.file_path)
      [("question", .str question), ("source_locator", .str item.source_locator)])
  let statements := answerStatements result.answer
  let linkedByFile := traceItems.map (·.file_path)
  let linked := statements.countP (fun stmt =>
    let ms := mdCitations stmt
    if ¬ ms.isEmpty then ms.any (fun m => linkedByFile.contains m)
    else ¬ traceItems.isEmpty)
  let total := statements.length
  let ratio : ℚ := if 0 < total then pyRound4 ((linked : ℚ) / (total : ℚ)) else 0
  ({ answer := result.answer, sources := sources, confidence := result.confidence,
     claim_trace := traceItems,
     trace_completeness := ⟨total, linked, ratio⟩,
     query_run_id := runId }, events)

/-- The function `generate_run_id` (its `datetime.now().strftime` stamp is the
explicit `stamp` parameter). -/
def generateRunId (runType brainName stamp : String) : String :=
  runType ++ "_" ++ brainName ++ "_" ++ makeShortHash [runType, brainName, stamp]

/-! ## Multi-brain orchestration (`orchestration.py`)

The language-model client and the two `query.py` helpers it powers are the
external collaborators §1 of the spec excludes; they are modelled as oracle
fields of `OrchEnv`, so every theorem below holds for every behaviour of the
collaborators.  `Except.error` models an uncaught Python exception. -/

/-- The exceptions `orchestrate_multi_brain_query` can raise. -/
inductive OrchError where
  | inputError (msg : String)
  | brainNotFound (missing : List String)
  | llmError (msg : String)
deriving DecidableEq

/-- Internal candidate record of `_build_conflict_candidates`. -/
structure ConflictCandidate where
  pair_id : String
  brain_a : String
  brain_b : String
  claim_a : ClaimTraceItem
  claim_b : ClaimTraceItem
deriving DecidableEq

/-- The environment of external collaborators and per-brain persisted state:
`brainExists` models `Brain.exists()`, `brainClaims` the ledger document that
`ClaimStore(brain).list_claims` reads, `selectFiles` the LLM-backed
`select_relevant_files`, `answerPlain` the LLM-backed `answer_from_brain`,
and `generateSynthesis`/`generateConflicts` the two `client.generate` calls.
`answerWithAudit` stands for `query.answer_from_brain_with_audit`, which
`orchestration.py` imports but whose definition is not among the
repository's files; per spec §4.4–4.5 it answers from the brain and runs the
Query Auditor, and the theorems below use only its result. -/
structure OrchEnv where
  brainExists : String → Bool
  claimsVersioningEnabled : Bool
  brainClaims : String → ClaimDict
  selectFiles : String → String → Except String FileSelection
  answerWithAudit : String → String → List String → Except String QueryAuditResult
  answerPlain : String → String → List String → Except String QueryResult
  generateSynthesis : String → String → Except String GlobalSynthesis
  generateConflicts : String → String → Except String ConflictDecisionBatch

/-- The function `_brain_has_claim_metadata`. -/
def brainHasClaimMetadata (env : OrchEnv) (name : String) : Bool :=
  env.claimsVersioningEnabled &&
    decide (0 < (listClaims (env.brainClaims name)
      Option.none Option.none Option.none Option.none 1 0).length)

/-- One iteration of the `_collect_per_brain` loop: the per-brain internal
bundle plus the truncation warnings this brain contributed. -/
def collectOneBrain (env : OrchEnv) (question : String) (maxFilesPerBrain : Int)
    (name : String) : Except String (InternalPerBrain × List String) := do
  let selection ← env.selectFiles question name
  let selectedFiles0 := selection.files
  let truncated := maxFilesPerBrain < (selectedFiles0.length : Int)
  let warns :=
    if truncated then
      ["Brain '" ++ name ++ "' selected " ++ toString selectedFiles0.length ++
       " files; truncated to " ++ toString maxFilesPerBrain ++ "."]
    else []
  let selectedFiles := if truncated then selectedFiles0.take maxFilesPerBrain.toNat
                       else selectedFiles0
  let hasClaims := brainHasClaimMetadata env name
  if selectedFiles.isEmpty then
    return (⟨{ brain_name := name,
               answer_excerpt := "No relevant files found for this brain.",
               confidence := .none, sources := [], claim_trace := [],
               trace_degraded := ! hasClaims, trace_completeness_ratio := 0 }, []⟩, warns)
  else if hasClaims then do
    let audit ← env.answerWithAudit question name selectedFiles
    let prefixedSources := audit.sources.map (fun s => name ++ ":" ++ s)
    return (⟨{ brain_name := name, answer_excerpt := audit.answer,
               confidence := audit.confidence, sources := prefixedSources,
               claim_trace := audit.claim_trace, trace_degraded := false,
               trace_completeness_ratio := audit.trace_completeness.completeness_ratio },
             audit.claim_trace⟩, warns)
  else do
    let result ← env.answerPlain question name selectedFiles
    let sourcePaths := if result.sources.isEmpty then selectedFiles else result.sources
    return (⟨{ brain_name := name, answer_excerpt := result.answer,
               confidence := result.confidence,
               sources := sourcePaths.map (fun s => name ++ ":" ++ s),
               claim_trace := [], trace_degraded := true,
               trace_completeness_ratio := 0 }, []⟩, warns)

/-- The function `_collect_per_brain` over the selected brains, accumulating
the per-brain warnings in brain order. -/
def collectPerBrain (env : OrchEnv) (question : String) (maxFilesPerBrain : Int) :
    List String → Except String (List InternalPerBrain × List String)
  | [] => Except.ok ([], [])
  | name :: rest => do
      let one ← collectOneBrain env question maxFilesPerBrain name
      let others ← collectPerBrain env question maxFilesPerBrain rest
      return (one.1 :: others.1, one.2 ++ others.2)

/-- The function `_synthesize_global_answer`. -/
def synthesizeGlobalAnswer (env : OrchEnv) (question : String)
    (perBrain : List PerBrainResult) : Except String GlobalSynthesis :=
  if perBrain.isEmpty then
    Except.ok { answer := "I couldn't find relevant information across the selected brains.",
                confidence := .none }
  else
    let contextParts := perBrain.map (fun item =>
      "## Brain: " ++ item.brain_name ++ "\n" ++
      "Confidence: " ++ item.confidence.value ++ "\n" ++
      "Sources: " ++ (let j := String.intercalate ", " item.sources
                      if j = "" then "none" else j) ++ "\n" ++
      "Answer: " ++ item.answer_excerpt ++ "\n")
    let systemPrompt :=
      "You are a rigorous synthesis engine. Combine the per-brain findings into one coherent answer. " ++
      "Cite where claims come from using brain names and preserve uncertainty when evidence is weak."
    let userPrompt :=
      "Question: " ++ question ++ "\n\n" ++ "Per-brain findings:\n" ++
      String.intercalate "\n" contextParts ++ "\n\nProvide a unified answer and confidence."
    env.generateSynthesis systemPrompt userPrompt

/-- The ordered pairs of `itertools.combinations(xs, 2)`. -/
def pairCombos {α : Type} : List α → List (α × α)
  | [] => []
  | x :: rest => rest.map (fun y => (x, y)) ++ pairCombos rest

/-- One outer-loop iteration of `_build_conflict_candidates`: score `ca`
against every claim of source B (overlap ≥ 2, distinct ids, not textually
identical). -/
def scorePairsStep (claimsB : List ClaimTraceItem)
    (acc : List (Nat × ClaimTraceItem × ClaimTraceItem)) (ca : ClaimTraceItem) :
    List (Nat × ClaimTraceItem × ClaimTraceItem) :=
  let tokensA := pyTokenize ca.claim_text
  acc ++ claimsB.filterMap (fun cb =>
    if ca.claim_id == cb.claim_id then Option.none
    else
      let overlap := tokOverlap tokensA (pyTokenize cb.claim_text)
      if overlap < 2 then Option.none
      else if pyLower (pyStrip ca.claim_text) == pyLower (pyStrip cb.claim_text) then
        Option.none
      else some (overlap, ca, cb))

/-- The inner double loop of `_build_conflict_candidates`. -/
def scorePairs (claimsA claimsB : List ClaimTraceItem) :
    List (Nat × ClaimTraceItem × ClaimTraceItem) :=
  claimsA.foldl (scorePairsStep claimsB) []

/-- The function `_build_conflict_candidates`. -/
def buildConflictCandidates (perBrainInternal : List InternalPerBrain)
    (maxPairsPerBrainCombo : Nat := 2) : List ConflictCandidate :=
  (pairCombos perBrainInternal).foldl (fun acc pr =>
    let claimsA := pr.1.claim_trace_for_conflicts.take 8
    let claimsB := pr.2.claim_trace_for_conflicts.take 8
    if claimsA.isEmpty ∨ claimsB.isEmpty then acc
    else
      let scored := scorePairs claimsA claimsB
      let sorted := stableSort (fun a b => decide (b.1 ≤ a.1)) scored
      let top := sorted.take maxPairsPerBrainCombo
      acc ++ (List.enumFrom 1 top).map (fun it =>
        { pair_id := pr.1.result.brain_name ++ "__" ++ pr.2.result.brain_name ++
                     "__" ++ toString it.1,
          brain_a := pr.1.result.brain_name,
          brain_b := pr.2.result.brain_name,
          claim_a := it.2.2.1,
          claim_b := it.2.2.2 })) []

/-- The function `_classify_conflicts` (a failed classification call
degrades to an empty conflict list). -/
def classifyConflicts (env : OrchEnv) (question : String)
    (perBrainInternal : List InternalPerBrain) : List ConflictItem :=
  let candidates := buildConflictCandidates perBrainInternal
  if candidates.isEmpty then []
  else
    let lines := candidates.map (fun c =>
      "PAIR_ID: " ++ c.pair_id ++ "\n" ++
      "BRAIN_A: " ++ c.brain_a ++ "\n" ++
      "CLAIM_A: " ++ c.claim_a.claim_text ++ "\n" ++
      "EVIDENCE_A: " ++ c.claim_a.evidence_quote ++ "\n" ++
      "BRAIN_B: " ++ c.brain_b ++ "\n" ++
      "CLAIM_B: " ++ c.claim_b.claim_text ++ "\n" ++
      "EVIDENCE_B: " ++ c.claim_b.evidence_quote ++ "\n")
    let systemPrompt :=
      "You are a contradiction classifier for multi-source knowledge. " ++
      "Classify each claim pair as support, refute, or ambiguous."
    let userPrompt :=
      "Question: " ++ question ++ "\n\n" ++ "Classify these claim pairs:\n\n" ++
      String.intercalate "\n" lines ++ "\nRespond with topic and classification for each pair."
    match env.generateConflicts systemPrompt userPrompt with
    | Except.error _ => []
    | Except.ok decisions =>
        decisions.items.foldl (fun acc decision =>
          -- `by_pair` is a dict built from `candidates`, so a repeated
          -- pair_id resolves to its last occurrence.
          match candidates.reverse.find? (fun c => c.pair_id == decision.pair_id) with
          | Option.none => acc
          | some pair =>
              let normalized0 := pyLower (pyStrip decision.classification)
              let normalized :=
                if normalized0 = "support" ∨ normalized0 = "refute" ∨ normalized0 = "ambiguous"
                then normalized0 else "ambiguous"
              acc ++ [{ topic := if decision.topic = "" then "Cross-brain claim comparison"
                                 else decision.topic,
                        brains_involved := [pair.brain_a, pair.brain_b],
                        classification := normalized,
                        evidence := [pair.brain_a ++ ":" ++ pair.claim_a.claim_id,
                                     pair.brain_b ++ ":" ++ pair.claim_b.claim_id] }]) []

/-- The function `_summarize_traceability`. -/
def summarizeTraceability (perBrain : List PerBrainResult) : TraceabilitySummary :=
  let withClaims := perBrain.filter (fun item => ! item.trace_degraded)
  let degraded := (perBrain.filter (·.trace_degraded)).map (·.brain_name)
  let ratio : ℚ :=
    if ¬ perBrain.isEmpty then
      pyRound4 ((perBrain.map (·.trace_completeness_ratio)).sum / (perBrain.length : ℚ))
    else 0
  { brains_with_claims := withClaims.length,
    brains_without_claims := degraded.length,
    overall_completeness_ratio := ratio,
    degraded_brains := degraded }

/-- The intermediate state of `orchestrate_multi_brain_query` after conflict
classification (everything up to the `include_claim_trace` post-processing,
which is the first step that reads that flag). -/
structure OrchCoreOut where
  deduped : List String
  warnings : List String
  perInternal : List InternalPerBrain
  synthesis : GlobalSynthesis
  conflicts : List ConflictItem
deriving DecidableEq

/-- Lines 374–420 of `orchestrate_multi_brain_query`: validation, brain
resolution, per-brain collection, global synthesis and (optional) conflict
classification — none of which reads `include_claim_trace`. -/
def orchestrateCore (env : OrchEnv) (question : String) (brainNames : List String)
    (includeConflicts : Bool) (maxBrains maxFilesPerBrain : Int) :
    Except OrchError OrchCoreOut :=
  if pyStrip question = "" then Except.error (.inputError "Question is required.")
  else if brainNames.isEmpty then
    Except.error (.inputError "At least one brain name is required.")
  else if maxBrains ≤ 0 ∨ maxFilesPerBrain ≤ 0 then
    Except.error (.inputError "max_brains and max_files_per_brain must be > 0.")
  else
    let deduped0 := ((brainNames.map pyStrip).filter (· ≠ "")).foldl insertUnique []
    if deduped0.isEmpty then Except.error (.inputError "No valid brain names provided.")
    else
      let overCap := maxBrains < (deduped0.length : Int)
      let truncWarnings :=
        if overCap then
          ["Received " ++ toString deduped0.length ++ " brains; truncated to max_brains=" ++
           toString maxBrains ++ "."]
        else []
      let deduped := if overCap then deduped0.take maxBrains.toNat else deduped0
      let missing := deduped.filter (fun n => ! env.brainExists n)
      if ¬ missing.isEmpty then Except.error (.brainNotFound missing)
      else
        match collectPerBrain env question maxFilesPerBrain deduped with
        | Except.error e => Except.error (.llmError e)
        | Except.ok collected =>
            match synthesizeGlobalAnswer env question (collected.1.map (·.result)) with
            | Except.error e => Except.error (.llmError e)
            | Except.ok globalSynthesis =>
                Except.ok
                  { deduped := deduped,
                    warnings := truncWarnings ++ collected.2,
                    perInternal := collected.1,
                    synthesis := globalSynthesis,
                    conflicts :=
                      if includeConflicts then classifyConflicts env question collected.1
                      else [] }

/-- Lines 422–446 of `orchestrate_multi_brain_query`: the
`include_claim_trace` post-processing and result assembly applied to the
core's output. -/
def assembleResult (core : OrchCoreOut) (includeClaimTrace : Bool)
    (stamp : String) : MultiBrainQueryResult :=
  let perBrain := core.perInternal.map (·.result)
  let perBrainFinal :=
    if includeClaimTrace then perBrain
    else perBrain.map (fun item =>
      { item with claim_trace := [], trace_completeness_ratio := 0 })
  let uniqueSources := (perBrainFinal.flatMap (·.sources)).foldl insertUnique []
  let runId := generateRunId "multiquery"
    (String.intercalate "_" (core.deduped.take 3)) stamp
  { answer := core.synthesis.answer,
    confidence := core.synthesis.confidence,
    per_brain := perBrainFinal,
    conflicts := core.conflicts,
    sources := uniqueSources,
    traceability := summarizeTraceability perBrainFinal,
    query_run_id := runId,
    warnings := core.warnings }

/-- The function `orchestrate_multi_brain_query` (the run-id stamp is the
explicit `stamp` parameter): the core above, then the assembly. -/
def orchestrate (env : OrchEnv) (question : String) (brainNames : List String)
    (includeClaimTrace includeConflicts : Bool) (maxBrains maxFilesPerBrain : Int)
    (stamp : String) : Except OrchError MultiBrainQueryResult :=
  match orchestrateCore env question brainNames includeConflicts maxBrains maxFilesPerBrain with
  | Except.error e => Except.error e
  | Except.ok core => Except.ok (assembleResult core includeClaimTrace stamp)

/-! ## Support lemmas: dict operations -/

theorem dget_nil {α : Type} (k : String) : dget ([] : List (String × α)) k = Option.none := by
  simp [dget]

theorem dget_cons {α : Type} (k' k : String) (v' : α) (rest : List (String × α)) :
    dget ((k', v') :: rest) k = if k' = k then some v' else dget rest k := by
  by_cases h : k' = k
  · subst h; simp [dget, List.find?_cons_of_pos]
  · simp [dget, List.find?_cons_of_neg, h]

theorem dget_dset_self {α : Type} (st : List (String × α)) (k : String) (v : α) :
    dget (dset st k v) k = some v := by
  induction st with
  | nil => simp [dset, dget_cons]
  | cons e rest ih =>
      obtain ⟨k', v'⟩ := e
      by_cases h : k' = k
      · subst h; simp [dset, dget_cons]
      · simp [dset, h, dget_cons, ih]

theorem dget_dset_ne {α : Type} :
    ∀ (st : List (String × α)) (k k' : String) (v : α), k' ≠ k →
      dget (dset st k v) k' = dget st k'
  | [], k, k', v, h => by
      have hne : k ≠ k' := fun he => h he.symm
      simp [dset, dget_cons, dget_nil, hne]
  | (k₀, v₀) :: rest, k, k', v, h => by
      by_cases hk : k₀ = k
      · subst hk
        have hne : k₀ ≠ k' := fun he => h he.symm
        simp [dset, dget_cons, hne]
      · simp only [dset, if_neg hk, dget_cons]
        rw [dget_dset_ne rest k k' v h]

theorem dkeys_dset_of_mem {α : Type} :
    ∀ (st : List (String × α)) (k : String) (v : α), k ∈ dkeys st →
      dkeys (dset st k v) = dkeys st
  | [], k, v, h => by simp [dkeys] at h
  | (k₀, v₀) :: rest, k, v, h => by
      by_cases hk : k₀ = k
      · subst hk; simp [dset, dkeys]
      · have hrest : k ∈ dkeys rest := by
          rw [show dkeys ((k₀, v₀) :: rest) = k₀ :: dkeys rest from rfl] at h
          rcases List.mem_cons.mp h with h' | h'
          · exact absurd h'.symm hk
          · exact h'
        simp only [dset, if_neg hk, dkeys, List.map_cons]
        rw [show (dset rest k v).map Prod.fst = dkeys (dset rest k v) from rfl,
            dkeys_dset_of_mem rest k v hrest]
        rfl

theorem dkeys_dset_of_not_mem {α : Type} :
    ∀ (st : List (String × α)) (k : String) (v : α), k ∉ dkeys st →
      dkeys (dset st k v) = dkeys st ++ [k]
  | [], k, v, _ => by simp [dset, dkeys]
  | (k₀, v₀) :: rest, k, v, h => by
      by_cases hk : k₀ = k
      · exact absurd (by simp [dkeys, hk]) h
      · have hrest : k ∉ dkeys rest := fun hm => h (by simp [dkeys]; exact Or.inr (by simpa [dkeys] using hm))
        simp only [dset, if_neg hk, dkeys, List.map_cons]
        rw [show (dset rest k v).map Prod.fst = dkeys (dset rest k v) from rfl,
            dkeys_dset_of_not_mem rest k v hrest]
        rfl

theorem DictWF_dset {α : Type} (st : List (String × α)) (k : String) (v : α)
    (h : DictWF st) : DictWF (dset st k v) := by
  unfold DictWF at h ⊢
  by_cases hm : k ∈ dkeys st
  · rw [dkeys_dset_of_mem st k v hm]; exact h
  · rw [dkeys_dset_of_not_mem st k v hm]
    simp [List.nodup_append, h, hm]

theorem mem_of_dget {α : Type} :
    ∀ (st : List (String × α)) (k : String) (v : α), dget st k = some v → (k, v) ∈ st
  | [], k, v, h => by simp [dget_nil] at h
  | (k₀, v₀) :: rest, k, v, h => by
      rw [dget_cons] at h
      by_cases hk : k₀ = k
      · subst hk; simp at h; simp [h]
      · simp only [if_neg hk] at h
        exact List.mem_cons_of_mem _ (mem_of_dget rest k v h)

theorem mem_dkeys_of_dget {α : Type} (st : List (String × α)) (k : String) (v : α)
    (h : dget st k = some v) : k ∈ dkeys st := by
  have := mem_of_dget st k v h
  simpa [dkeys] using List.mem_map_of_mem Prod.fst this

theorem dget_eq_none_of_not_mem {α : Type} :
    ∀ (st : List (String × α)) (k : String), k ∉ dkeys st → dget st k = Option.none
  | [], k, _ => by simp [dget_nil]
  | (k₀, v₀) :: rest, k, h => by
      have hk : k₀ ≠ k := fun he => h (by simp [dkeys, he])
      have hrest : k ∉ dkeys rest := fun hm => h (by simp [dkeys]; exact Or.inr (by simpa [dkeys] using hm))
      rw [dget_cons]
      simp [hk, dget_eq_none_of_not_mem rest k hrest]

theorem dget_eq_of_mem {α : Type} :
    ∀ (st : List (String × α)) (k : String) (v : α), DictWF st → (k, v) ∈ st →
      dget st k = some v
  | [], k, v, _, hmem => by simp at hmem
  | (k₀, v₀) :: rest, k, v, hwf, hmem => by
      rcases List.mem_cons.mp hmem with he | hrest
      · rw [Prod.mk.injEq] at he
        obtain ⟨h1, h2⟩ := he
        rw [dget_cons]
        simp [h1.symm, h2]
      · have hwf0 : (dkeys ((k₀, v₀) :: rest)).Nodup := hwf
        rw [show dkeys ((k₀, v₀) :: rest) = k₀ :: dkeys rest from rfl] at hwf0
        have hwf' : DictWF rest := (List.nodup_cons.mp hwf0).2
        have hk0 : k₀ ∉ dkeys rest := (List.nodup_cons.mp hwf0).1
        have hkmem : k ∈ dkeys rest := by
          simpa [dkeys] using List.mem_map_of_mem Prod.fst hrest
        have hk : k₀ ≠ k := fun he => hk0 (he ▸ hkmem)
        rw [dget_cons]
        simp [hk, dget_eq_of_mem rest k v hwf' hrest]

/-! ## Support lemmas: the stable sort -/

theorem mem_insertStable {α : Type} (le : α → α → Bool) (x a : α) (xs : List α) :
    a ∈ insertStable le x xs ↔ a = x ∨ a ∈ xs := by
  induction xs with
  | nil => simp [insertStable]
  | cons y ys ih =>
      by_cases h : le y x = true
      · simp only [insertStable, h, if_true, List.mem_cons, ih]
        tauto
      · simp only [insertStable, h, Bool.false_eq_true, if_false, List.mem_cons]
        try tauto

theorem length_insertStable {α : Type} (le : α → α → Bool) (x : α) (xs : List α) :
    (insertStable le x xs).length = xs.length + 1 := by
  induction xs with
  | nil => simp [insertStable]
  | cons y ys ih =>
      by_cases h : le y x = true
      · simp [insertStable, h, ih]
      · simp [insertStable, h]

theorem mem_stableSort {α : Type} (le : α → α → Bool) (a : α) (xs : List α) :
    a ∈ stableSort le xs ↔ a ∈ xs := by
  have general : ∀ (ys : List α) (init : List α),
      a ∈ ys.foldl (fun acc x => insertStable le x acc) init ↔ a ∈ init ∨ a ∈ ys := by
    intro ys
    induction ys with
    | nil => intro init; simp
    | cons y ys ih =>
        intro init
        simp only [List.foldl_cons, ih, mem_insertStable]
        simp
        tauto
  simpa [stableSort] using general xs []

theorem length_stableSort {α : Type} (le : α → α → Bool) (xs : List α) :
    (stableSort le xs).length = xs.length := by
  have general : ∀ (ys : List α) (init : List α),
      (ys.foldl (fun acc x => insertStable le x acc) init).length = init.length + ys.length := by
    intro ys
    induction ys with
    | nil => intro init; simp
    | cons y ys ih =>
        intro init
        simp only [List.foldl_cons, ih, length_insertStable, List.length_cons]
        omega
  simpa [stableSort] using general xs []

/-! ## Support lemmas: the extractor -/

theorem extract_mem (bn fp content rid now : String) (c : ClaimSnapshot)
    (hc : c ∈ (extractClaimSnapshots bn fp content rid now).1) :
    c.status = ClaimStatus.active ∧ c.file_path = fp ∧ c.brain_name = bn := by
  simp only [extractClaimSnapshots, List.map_map] at hc
  obtain ⟨t, _, rfl⟩ := List.mem_map.mp hc
  exact ⟨rfl, rfl, rfl⟩

/-- The claim ids of an extraction, as a function of the content alone: the
content-addressed id hashes only the brain name, file path, claim text,
evidence quote and source locator — never the run id or timestamp.  (A
derived view of `_extract_claim_snapshots`, used to state run-independence.) -/
def extractedIds (bn fp content : String) : List String :=
  let fmBody := splitFrontmatter content
  let sourceDefault :=
    pyStrip (match fmGet fmBody.1 "source" with
             | some v => fmValToPyStr v
             | Option.none => "")
  let quotes := extractQuotes fmBody.2
  let claimLines := extractClaimLines fmBody.2
  claimLines.map (fun claimText =>
    let chosen := chooseQuoteForClaim claimText quotes
    let sourceLocator :=
      pyStrip (if chosen.2 ≠ "" then chosen.2
               else if sourceDefault ≠ "" then sourceDefault
               else "unknown")
    "clm_" ++ makeShortHash [bn, fp, claimText, chosen.1, sourceLocator])

theorem extract_ids_eq (bn fp content rid now : String) :
    ((extractClaimSnapshots bn fp content rid now).1).map (·.claim_id) =
    extractedIds bn fp content := by
  simp only [extractClaimSnapshots, extractedIds, List.map_map]
  exact List.map_congr_left (fun t _ => rfl)

theorem extract_ids_indep (bn fp content r1 t1 r2 t2 : String) :
    ((extractClaimSnapshots bn fp content r1 t1).1).map (·.claim_id) =
    ((extractClaimSnapshots bn fp content r2 t2).1).map (·.claim_id) := by
  rw [extract_ids_eq, extract_ids_eq]

theorem extract_length_indep (bn fp content r1 t1 r2 t2 : String) :
    (extractClaimSnapshots bn fp content r1 t1).1.length =
    (extractClaimSnapshots bn fp content r2 t2).1.length := by
  have h := congrArg List.length (extract_ids_indep bn fp content r1 t1 r2 t2)
  simpa using h

/-! ## Support lemmas: the create/refresh loop -/

theorem createdLoop_dget_notin (bn fp rid now : String) :
    ∀ (claims : List ClaimSnapshot) (st : ClaimDict) (id : String),
      id ∉ claims.map (·.claim_id) →
      dget (createdLoop bn fp rid now claims st).state id = dget st id
  | [], _, _, _ => rfl
  | c :: rest, st, id, h => by
      have hid : id ≠ c.claim_id := fun he => h (by simp [he])
      have hrest : id ∉ rest.map (·.claim_id) := fun hm => h (by simp [hm])
      simp only [createdLoop]
      cases hae : activeExisting (dget st c.claim_id) with
      | some existing =>
          simp only
          rw [createdLoop_dget_notin bn fp rid now rest _ id hrest]
          exact dget_dset_ne _ _ _ _ hid
      | none =>
          simp only
          rw [createdLoop_dget_notin bn fp rid now rest _ id hrest]
          exact dget_dset_ne _ _ _ _ hid

theorem createdLoop_wf (bn fp rid now : String) :
    ∀ (claims : List ClaimSnapshot) (st : ClaimDict), DictWF st →
      DictWF (createdLoop bn fp rid now claims st).state
  | [], _, h => h
  | c :: rest, st, h => by
      simp only [createdLoop]
      cases hae : activeExisting (dget st c.claim_id) with
      | some existing =>
          exact createdLoop_wf bn fp rid now rest _ (DictWF_dset _ _ _ h)
      | none =>
          exact createdLoop_wf bn fp rid now rest _ (DictWF_dset _ _ _ h)

theorem createdLoop_active (bn fp rid now : String) :
    ∀ (claims : List ClaimSnapshot) (st : ClaimDict) (id : String),
      (∀ c ∈ claims, c.status = ClaimStatus.active ∧ c.file_path = fp) →
      id ∈ claims.map (·.claim_id) →
      ∃ s, dget (createdLoop bn fp rid now claims st).state id = some s ∧
        s.status = ClaimStatus.active ∧ s.file_path = fp ∧ s.claim_id = id
  | [], _, _, _, hid => by simp at hid
  | c :: rest, st, id, hall, hid => by
      have hall' : ∀ c' ∈ rest, c'.status = ClaimStatus.active ∧ c'.file_path = fp :=
        fun c' hc' => hall c' (List.mem_cons_of_mem _ hc')
      by_cases hmem : id ∈ rest.map (·.claim_id)
      · simp only [createdLoop]
        cases hae : activeExisting (dget st c.claim_id) with
        | some existing => exact createdLoop_active bn fp rid now rest _ id hall' hmem
        | none => exact createdLoop_active bn fp rid now rest _ id hall' hmem
      · have hideq : id = c.claim_id := by
          rcases List.mem_map.mp hid with ⟨c', hc', hcid⟩
          rcases List.mem_cons.mp hc' with rfl | hc'
          · exact hcid.symm
          · exact absurd (hcid ▸ List.mem_map_of_mem _ hc') hmem
        subst hideq
        obtain ⟨hcact, hcfp⟩ := hall c (List.mem_cons_self c rest)
        simp only [createdLoop]
        cases hae : activeExisting (dget st c.claim_id) with
        | some existing =>
            simp only
            rw [createdLoop_dget_notin bn fp rid now rest _ _ hmem, dget_dset_self]
            exact ⟨_, rfl, hcact, hcfp, rfl⟩
        | none =>
            simp only
            rw [createdLoop_dget_notin bn fp rid now rest _ _ hmem, dget_dset_self]
            exact ⟨c, rfl, hcact, hcfp, rfl⟩

/-! ## Support lemmas: the supersede loop -/

theorem supersedeLoop_all_skip (bn fp rid now : String) (newIds : List String) :
    ∀ (olds : List (String × ClaimSnapshot)) (st : ClaimDict),
      (∀ e ∈ olds, e.1 ∈ newIds) →
      supersedeLoop bn fp rid now newIds olds st = ⟨st, 0, []⟩
  | [], _, _ => rfl
  | (k₀, v₀) :: rest, st, h => by
      have hk : k₀ ∈ newIds := h (k₀, v₀) (List.mem_cons_self _ _)
      simp only [supersedeLoop, if_pos hk]
      exact supersedeLoop_all_skip bn fp rid now newIds rest st
        (fun e he => h e (List.mem_cons_of_mem _ he))

theorem supersedeLoop_dget_mem_newIds (bn fp rid now : String) (newIds : List String) :
    ∀ (olds : List (String × ClaimSnapshot)) (st : ClaimDict) (id : String),
      id ∈ newIds →
      dget (supersedeLoop bn fp rid now newIds olds st).state id = dget st id
  | [], _, _, _ => rfl
  | (k₀, v₀) :: rest, st, id, hid => by
      by_cases hk : k₀ ∈ newIds
      · simp only [supersedeLoop, if_pos hk]
        exact supersedeLoop_dget_mem_newIds bn fp rid now newIds rest st id hid
      · have hne : id ≠ k₀ := fun he => hk (he ▸ hid)
        simp only [supersedeLoop, if_neg hk]
        rw [supersedeLoop_dget_mem_newIds bn fp rid now newIds rest _ id hid]
        exact dget_dset_ne _ _ _ _ hne

theorem supersedeLoop_dget_notin (bn fp rid now : String) (newIds : List String) :
    ∀ (olds : List (String × ClaimSnapshot)) (st : ClaimDict) (id : String),
      id ∉ olds.map Prod.fst →
      dget (supersedeLoop bn fp rid now newIds olds st).state id = dget st id
  | [], _, _, _ => rfl
  | (k₀, v₀) :: rest, st, id, h => by
      have hne : id ≠ k₀ := fun he => h (by simp [he])
      have hrest : id ∉ rest.map Prod.fst := fun hm => h (by simp [hm])
      by_cases hk : k₀ ∈ newIds
      · simp only [supersedeLoop, if_pos hk]
        exact supersedeLoop_dget_notin bn fp rid now newIds rest st id hrest
      · simp only [supersedeLoop, if_neg hk]
        rw [supersedeLoop_dget_notin bn fp rid now newIds rest _ id hrest]
        exact dget_dset_ne _ _ _ _ hne

theorem supersedeLoop_superseded (bn fp rid now : String) (newIds : List String) :
    ∀ (olds : List (String × ClaimSnapshot)) (st : ClaimDict) (k : String)
      (v : ClaimSnapshot),
      (olds.map Prod.fst).Nodup → (k, v) ∈ olds → k ∉ newIds →
      dget (supersedeLoop bn fp rid now newIds olds st).state k =
        some { v with status := ClaimStatus.superseded, updated_at := now,
                      updated_by_run := rid }
  | [], _, _, _, _, hmem, _ => by simp at hmem
  | (k₀, v₀) :: rest, st, k, v, hnodup, hmem, hnot => by
      rcases List.mem_cons.mp hmem with he | hrest
      · rw [Prod.mk.injEq] at he
        obtain ⟨h1, h2⟩ := he
        subst h1
        subst h2
        simp only [supersedeLoop, if_neg hnot]
        have hknotrest : k ∉ rest.map Prod.fst :=
          (List.nodup_cons.mp (by simpa using hnodup)).1
        rw [supersedeLoop_dget_notin bn fp rid now newIds rest _ _ hknotrest]
        exact dget_dset_self _ _ _
      · have hnodup' : (rest.map Prod.fst).Nodup :=
          (List.nodup_cons.mp (by simpa using hnodup)).2
        by_cases hk : k₀ ∈ newIds
        · simp only [supersedeLoop, if_pos hk]
          exact supersedeLoop_superseded bn fp rid now newIds rest st k v hnodup' hrest hnot
        · simp only [supersedeLoop, if_neg hk]
          exact supersedeLoop_superseded bn fp rid now newIds rest _ k v hnodup' hrest hnot

theorem supersedeLoop_wf (bn fp rid now : String) (newIds : List String) :
    ∀ (olds : List (String × ClaimSnapshot)) (st : ClaimDict), DictWF st →
      DictWF (supersedeLoop bn fp rid now newIds olds st).state
  | [], _, h => h
  | (k₀, v₀) :: rest, st, h => by
      by_cases hk : k₀ ∈ newIds
      · simp only [supersedeLoop, if_pos hk]
        exact supersedeLoop_wf bn fp rid now newIds rest st h
      · simp only [supersedeLoop, if_neg hk]
        exact supersedeLoop_wf bn fp rid now newIds rest _ (DictWF_dset _ _ _ h)

/-! ## Support lemmas: the all-refresh run and track-level postconditions -/

/-- The fields `track_file_claims` preserves when it refreshes an active
claim in place (trivially preserved on untouched entries). -/
def refreshKept (s s' : ClaimSnapshot) : Prop :=
  s'.revision_id = s.revision_id ∧ s'.created_at = s.created_at ∧
  s'.created_by_run = s.created_by_run ∧ s'.status = s.status ∧
  s'.file_path = s.file_path

theorem refreshKept_refl (s : ClaimSnapshot) : refreshKept s s :=
  ⟨rfl, rfl, rfl, rfl, rfl⟩

theorem refreshKept_trans {a b c : ClaimSnapshot}
    (h1 : refreshKept a b) (h2 : refreshKept b c) : refreshKept a c := by
  obtain ⟨x1, x2, x3, x4, x5⟩ := h1
  obtain ⟨y1, y2, y3, y4, y5⟩ := h2
  exact ⟨y1.trans x1, y2.trans x2, y3.trans x3, y4.trans x4, y5.trans x5⟩

theorem createdLoop_all_active (bn fp rid now : String) :
    ∀ (claims : List ClaimSnapshot) (st : ClaimDict),
      (∀ c ∈ claims, c.status = ClaimStatus.active ∧
        ∃ s, dget st c.claim_id = some s ∧ s.status = ClaimStatus.active ∧
          s.file_path = c.file_path) →
      (createdLoop bn fp rid now claims st).created = 0 ∧
      (createdLoop bn fp rid now claims st).unchanged = claims.length ∧
      (createdLoop bn fp rid now claims st).events = [] ∧
      dkeys (createdLoop bn fp rid now claims st).state = dkeys st ∧
      (∀ id s, dget st id = some s →
        ∃ s', dget (createdLoop bn fp rid now claims st).state id = some s' ∧
          refreshKept s s')
  | [], st, _ => ⟨rfl, rfl, rfl, rfl, fun _ s h => ⟨s, h, refreshKept_refl s⟩⟩
  | c :: rest, st, hall => by
      obtain ⟨hcact, s₀, hs₀, hs₀act, hs₀fp⟩ := hall c (List.mem_cons_self c rest)
      have hae : activeExisting (dget st c.claim_id) = some s₀ := by
        rw [hs₀]; simp [activeExisting, hs₀act]
      set refreshed : ClaimSnapshot :=
        { c with revision_id := s₀.revision_id, created_at := s₀.created_at,
                 created_by_run := s₀.created_by_run, updated_at := now,
                 updated_by_run := rid } with hrefr
      have hall' : ∀ c' ∈ rest, c'.status = ClaimStatus.active ∧
          ∃ s, dget (dset st c.claim_id refreshed) c'.claim_id = some s ∧
            s.status = ClaimStatus.active ∧ s.file_path = c'.file_path := by
        intro c' hc'
        obtain ⟨h1, s₁, hs₁, hs₁act, hs₁fp⟩ := hall c' (List.mem_cons_of_mem _ hc')
        refine ⟨h1, ?_⟩
        by_cases he : c'.claim_id = c.claim_id
        · rw [he, dget_dset_self]
          have hseq : s₁ = s₀ := by
            rw [he] at hs₁
            rw [hs₁] at hs₀
            exact Option.some.inj hs₀
          refine ⟨refreshed, rfl, hcact, ?_⟩
          show c.file_path = c'.file_path
          rw [← hs₀fp, ← hseq, hs₁fp]
        · rw [dget_dset_ne _ _ _ _ he]
          exact ⟨s₁, hs₁, hs₁act, hs₁fp⟩
      obtain ⟨ih1, ih2, ih3, ih4, ih5⟩ :=
        createdLoop_all_active bn fp rid now rest (dset st c.claim_id refreshed) hall'
      simp only [createdLoop, hae]
      refine ⟨ih1, ?_, ih3, ?_, ?_⟩
      · simp only [ih2, List.length_cons]
      · rw [ih4, dkeys_dset_of_mem]
        exact mem_dkeys_of_dget st _ s₀ hs₀
      · intro id s hs
        by_cases hid : id = c.claim_id
        · subst hid
          have hseq : s = s₀ := by
            rw [hs] at hs₀
            exact Option.some.inj hs₀
          obtain ⟨s', hs', hkept⟩ := ih5 _ refreshed (dget_dset_self st _ refreshed)
          refine ⟨s', hs', refreshKept_trans ?_ hkept⟩
          subst hseq
          refine ⟨rfl, rfl, rfl, ?_, ?_⟩
          · show c.status = s.status
            rw [hcact, hs₀act]
          · show c.file_path = s.file_path
            rw [hs₀fp]
        · obtain ⟨s', hs', hk⟩ := ih5 id s (by rw [dget_dset_ne _ _ _ _ hid]; exact hs)
          exact ⟨s', hs', hk⟩

theorem DictWF_filter {α : Type} (st : List (String × α)) (p : String × α → Bool)
    (hwf : DictWF st) : ((st.filter p).map Prod.fst).Nodup := by
  have hsub : List.Sublist ((st.filter p).map Prod.fst) (st.map Prod.fst) :=
    (List.filter_sublist st).map Prod.fst
  exact List.Nodup.sublist hsub hwf

theorem track_wf (enf : String) (st : ClaimDict) (bn fp content rid now : String)
    (hwf : DictWF st) :
    DictWF (trackFileClaims enf st bn fp content rid now).state := by
  simp only [trackFileClaims]
  exact supersedeLoop_wf bn fp rid now _ _ _
    (createdLoop_wf bn fp rid now _ st hwf)

theorem track_active_ids (enf : String) (st : ClaimDict) (bn fp content rid now : String) :
    ∀ id ∈ extractedIds bn fp content,
      ∃ s, dget (trackFileClaims enf st bn fp content rid now).state id = some s ∧
        s.status = ClaimStatus.active ∧ s.file_path = fp ∧ s.claim_id = id := by
  intro id hid
  have hid' : id ∈ ((extractClaimSnapshots bn fp content rid now).1).map (·.claim_id) := by
    rw [extract_ids_eq]; exact hid
  have hall : ∀ c ∈ (extractClaimSnapshots bn fp content rid now).1,
      c.status = ClaimStatus.active ∧ c.file_path = fp := fun c hc =>
    ⟨(extract_mem bn fp content rid now c hc).1, (extract_mem bn fp content rid now c hc).2.1⟩
  obtain ⟨s, hs, hact, hfp, hcid⟩ := createdLoop_active bn fp rid now _ st id hall hid'
  simp only [trackFileClaims]
  rw [supersedeLoop_dget_mem_newIds bn fp rid now _ _ _ id hid']
  exact ⟨s, hs, hact, hfp, hcid⟩

theorem track_active_only_ids (enf : String) (st : ClaimDict)
    (bn fp content rid now : String) (hwf : DictWF st) :
    ∀ k s, dget (trackFileClaims enf st bn fp content rid now).state k = some s →
      s.status = ClaimStatus.active → s.file_path = fp →
      k ∈ extractedIds bn fp content := by
  intro k s hdget hact hfp
  rw [← extract_ids_eq bn fp content rid now]
  by_contra hnot
  simp only [trackFileClaims] at hdget
  by_cases hold : k ∈ (st.filter (fun e =>
      e.2.file_path == fp && e.2.status == ClaimStatus.active)).map Prod.fst
  · obtain ⟨e, he, hke⟩ := List.mem_map.mp hold
    obtain ⟨k', v⟩ := e
    subst hke
    have hnodup := DictWF_filter st
      (fun e => e.2.file_path == fp && e.2.status == ClaimStatus.active) hwf
    have := supersedeLoop_superseded bn fp rid now
      ((extractClaimSnapshots bn fp content rid now).1.map (·.claim_id)) _
      (createdLoop bn fp rid now (extractClaimSnapshots bn fp content rid now).1 st).state
      k' v hnodup he hnot
    rw [this] at hdget
    have hs : s = { v with status := ClaimStatus.superseded, updated_at := now,
                           updated_by_run := rid } := (Option.some.inj hdget).symm
    rw [hs] at hact
    exact absurd hact (by simp)
  · rw [supersedeLoop_dget_notin bn fp rid now _ _ _ _
        (by simpa using hold)] at hdget
    rw [createdLoop_dget_notin bn fp rid now _ _ _ hnot] at hdget
    have hmem : (k, s) ∈ st := mem_of_dget st k s hdget
    have hfmem : (k, s) ∈ st.filter (fun e =>
        e.2.file_path == fp && e.2.status == ClaimStatus.active) := by
      refine List.mem_filter.mpr ⟨hmem, ?_⟩
      simp [hfp, hact]
    exact hold (List.mem_map_of_mem Prod.fst hfmem)

/-! ## Support lemmas: the rounding model -/

theorem pyRound4_zero : pyRound4 0 = 0 := by
  norm_num [pyRound4]

theorem pyRound4_bounds (q : ℚ) (h0 : 0 ≤ q) (h1 : q ≤ 1) :
    0 ≤ pyRound4 q ∧ pyRound4 q ≤ 1 := by
  unfold pyRound4
  set x : ℚ := q * 10000 with hx
  have hx0 : 0 ≤ x := by positivity
  have hx1 : x ≤ 10000 := by
    rw [hx]
    nlinarith
  have hf0 : 0 ≤ ⌊x⌋ := Int.floor_nonneg.mpr hx0
  have hf1 : ⌊x⌋ ≤ 10000 := by
    have := Int.floor_le_floor (α := ℚ) hx1
    simpa using this
  set f : ℤ := ⌊x⌋ with hfdef
  set r : ℚ := x - (f : ℚ) with hrdef
  have hr0 : 0 ≤ r := by
    have := Int.floor_le x
    simp only [hrdef, hfdef]
    linarith
  by_cases hlt : r < 1 / 2
  · simp only [hlt, if_true]
    constructor
    · positivity
    · rw [div_le_one (by norm_num)]
      exact_mod_cast hf1
  · have hhalf : 1 / 2 ≤ r := le_of_not_lt hlt
    have hfsucc : f + 1 ≤ 10000 := by
      by_contra hcon
      push_neg at hcon
      have hf10000 : f = 10000 := le_antisymm hf1 (by omega)
      have : x = (f : ℚ) + r := by rw [hrdef]; ring
      rw [hf10000] at this
      have : (10000 : ℚ) + 1 / 2 ≤ x := by rw [this]; push_cast; linarith
      linarith
    have hn0 : (0 : ℚ) ≤ ((f : ℚ) + 1) / 10000 := by
      have : (0 : ℚ) ≤ (f : ℚ) + 1 := by exact_mod_cast (by omega : (0 : ℤ) ≤ f + 1)
      positivity
    have hn1 : ((f : ℚ) + 1) / 10000 ≤ 1 := by
      rw [div_le_one (by norm_num)]
      exact_mod_cast hfsucc
    have hbase0 : (0 : ℚ) ≤ (f : ℚ) / 10000 := by
      have : (0 : ℚ) ≤ (f : ℚ) := by exact_mod_cast hf0
      positivity
    have hbase1 : (f : ℚ) / 10000 ≤ 1 := by
      rw [div_le_one (by norm_num)]
      exact_mod_cast hf1
    by_cases hgt : 1 / 2 < r
    · simp only [hlt, hgt, if_false, if_true]
      constructor
      · exact_mod_cast hn0
      · exact_mod_cast hn1
    · by_cases hev : Even f
      · simp only [hlt, hgt, hev, if_false, if_true]
        exact ⟨hbase0, hbase1⟩
      · simp only [hlt, hgt, hev, if_false]
        constructor
        · exact_mod_cast hn0
        · exact_mod_cast hn1

/-! ## The claims -/

/-- C2: re-running `track_file_claims` on the same file with byte-identical
content creates nothing and supersedes nothing: the second run returns
created = 0 and superseded = 0, counts every extracted claim as unchanged,
appends no `claim_created` or `claim_superseded` event, leaves the set of
claim ids unchanged, and refreshes every snapshot in place preserving
`revision_id`, `created_at` and `created_by_run` (and its status and file). -/
theorem c2_reextraction_idempotent (enforcement : String) (st : ClaimDict)
    (hwf : DictWF st) (bn fp content r1 t1 r2 t2 : String) :
    (trackFileClaims enforcement (trackFileClaims enforcement st bn fp content r1 t1).state
        bn fp content r2 t2).counts.created = 0 ∧
    (trackFileClaims enforcement (trackFileClaims enforcement st bn fp content r1 t1).state
        bn fp content r2 t2).counts.superseded = 0 ∧
    (trackFileClaims enforcement (trackFileClaims enforcement st bn fp content r1 t1).state
        bn fp content r2 t2).counts.unchanged =
      (extractClaimSnapshots bn fp content r2 t2).1.length ∧
    (∀ e ∈ (trackFileClaims enforcement (trackFileClaims enforcement st bn fp content r1 t1).state
        bn fp content r2 t2).events,
      e.event_type ≠ "claim_created" ∧ e.event_type ≠ "claim_superseded") ∧
    dkeys (trackFileClaims enforcement (trackFileClaims enforcement st bn fp content r1 t1).state
        bn fp content r2 t2).state =
      dkeys (trackFileClaims enforcement st bn fp content r1 t1).state ∧
    (∀ id s, dget (trackFileClaims enforcement st bn fp content r1 t1).state id = some s →
      ∃ s', dget (trackFileClaims enforcement
          (trackFileClaims enforcement st bn fp content r1 t1).state
          bn fp content r2 t2).state id = some s' ∧ refreshKept s s') := by
  set st1 : ClaimDict := (trackFileClaims enforcement st bn fp content r1 t1).state with hst1
  have hwf1 : DictWF st1 := track_wf enforcement st bn fp content r1 t1 hwf
  have hall2 : ∀ c ∈ (extractClaimSnapshots bn fp content r2 t2).1,
      c.status = ClaimStatus.active ∧
      ∃ s, dget st1 c.claim_id = some s ∧ s.status = ClaimStatus.active ∧
        s.file_path = c.file_path := by
    intro c hc
    have hfacts := extract_mem bn fp content r2 t2 c hc
    have hid : c.claim_id ∈ extractedIds bn fp content := by
      rw [← extract_ids_eq bn fp content r2 t2]
      exact List.mem_map_of_mem _ hc
    obtain ⟨s, hs, hact, hfp, _⟩ :=
      track_active_ids enforcement st bn fp content r1 t1 c.claim_id hid
    exact ⟨hfacts.1, s, hs, hact, by rw [hfp, hfacts.2.1]⟩
  obtain ⟨h1, h2, h3, h4, h5⟩ :=
    createdLoop_all_active bn fp r2 t2 (extractClaimSnapshots bn fp content r2 t2).1 st1 hall2
  have hskip : ∀ e ∈ st1.filter (fun e =>
      e.2.file_path == fp && e.2.status == ClaimStatus.active),
      e.1 ∈ ((extractClaimSnapshots bn fp content r2 t2).1).map (·.claim_id) := by
    intro e he
    obtain ⟨k, v⟩ := e
    have hmem := (List.mem_filter.mp he).1
    have hpred := (List.mem_filter.mp he).2
    have hfp : v.file_path = fp := by
      have := (Bool.and_eq_true _ _ |>.mp hpred).1
      simpa using this
    have hact : v.status = ClaimStatus.active := by
      have := (Bool.and_eq_true _ _ |>.mp hpred).2
      simpa using this
    have hdget : dget st1 k = some v := dget_eq_of_mem _ _ _ hwf1 hmem
    have hidmem := track_active_only_ids enforcement st bn fp content r1 t1 hwf k v
      hdget hact hfp
    rw [extract_ids_eq bn fp content r2 t2]
    exact hidmem
  have hp2 := supersedeLoop_all_skip bn fp r2 t2
    ((extractClaimSnapshots bn fp content r2 t2).1.map (·.claim_id))
    (st1.filter (fun e => e.2.file_path == fp && e.2.status == ClaimStatus.active))
    (createdLoop bn fp r2 t2 (extractClaimSnapshots bn fp content r2 t2).1 st1).state
    hskip
  refine ⟨?_, ?_, ?_, ?_, ?_, ?_⟩
  · simp only [trackFileClaims]
    rw [hp2] at *
    exact h1
  · simp only [trackFileClaims]
    rw [hp2]
  · simp only [trackFileClaims]
    rw [hp2] at *
    exact h2
  · simp only [trackFileClaims]
    rw [hp2, h3]
    intro e he
    simp only [List.nil_append] at he
    by_cases henf : enforcement ≠ "off"
    · rw [if_pos henf] at he
      obtain ⟨w, _, rfl⟩ := List.mem_map.mp he
      exact ⟨by simp [mkEvent], by simp [mkEvent]⟩
    · rw [if_neg henf] at he
      simp at he
  · simp only [trackFileClaims]
    rw [hp2, h4]
  · intro id s hs
    simp only [trackFileClaims]
    rw [hp2]
    exact h5 id s hs

/-- A zero snapshot used as the default of `Option.getD` in concrete
statements. -/
def blankSnap : ClaimSnapshot :=
  { claim_id := "", revision_id := "", status := .active, brain_name := "",
    file_path := "", claim_text := "", evidence_quote := "", source_locator := "",
    confidence := .medium, tags := [], related_claim_ids := [], created_at := "",
    updated_at := "", created_by_run := "", updated_by_run := "",
    supersedes_revision_id := Option.none, user_override := false }

/-- Content whose extraction yields the single claim "Alpha reactor subsystem
converges rapidly" (no quote, no frontmatter). -/
def c1ContentA : String := "- Alpha reactor subsystem converges rapidly\n"

/-- Content whose extraction yields a different single claim. -/
def c1ContentB : String := "- Beta reactor subsystem converges rapidly\n"

/-- The snapshot document after tracking `c1ContentA` and then `c1ContentB`
for the same file: the Alpha claim is now superseded. -/
def c1s2 : ClaimDict :=
  (trackFileClaims "off"
    (trackFileClaims "off" [] "b" "f.md" c1ContentA "r1" "t1").state
    "b" "f.md" c1ContentB "r2" "t2").state

/-- The claim id of the Alpha claim. -/
def c1IdA : String := (extractedIds "b" "f.md" c1ContentA).headD ""

/-- The superseded Alpha snapshot inside `c1s2`. -/
def c1Sx : ClaimSnapshot := (dget c1s2 c1IdA).getD blankSnap

/-- C1 (counterexample): the lifecycle is not monotonic.  After tracking
content A then content B for `f.md`, the Alpha claim's snapshot is
`superseded`; re-tracking content A transitions that same `claim_id` back to
`active`, contradicting "never superseded→active". -/
theorem c1_counterexample_superseded_back_to_active :
    (dget c1s2 c1IdA).map (fun c => c.status) = some ClaimStatus.superseded ∧
    (dget (trackFileClaims "off" c1s2 "b" "f.md" c1ContentA "r3" "t3").state c1IdA).map
      (fun c => c.status) = some ClaimStatus.active := by
  constructor
  · rfl
  · rfl

/-- C1 (amended): lifecycle transitions are monotonic only for claim ids that
are never extracted again.  When a later `track_file_claims` run on the same
file extracts a claim whose `claim_id` equals that of a superseded snapshot,
the snapshot transitions back to `active` (it is re-inserted as a fresh
active snapshot). -/
theorem c1_amended_resurrection (enforcement : String) (st : ClaimDict)
    (bn fp content runId now X : String) (sx : ClaimSnapshot)
    (hx : dget st X = some sx) (hsup : sx.status = ClaimStatus.superseded)
    (hmem : X ∈ extractedIds bn fp content) :
    ∃ s', dget (trackFileClaims enforcement st bn fp content runId now).state X = some s' ∧
      s'.status = ClaimStatus.active := by
  obtain ⟨s, hs, hact, _, _⟩ := track_active_ids enforcement st bn fp content runId now X hmem
  exact ⟨s, hs, hact⟩

/-- C1 (witness): the amended theorem applied to the concrete superseded
Alpha snapshot of `c1s2`. -/
theorem c1_amended_witness :
    (dget c1s2 c1IdA = some c1Sx ∧ c1Sx.status = ClaimStatus.superseded ∧
      c1IdA ∈ extractedIds "b" "f.md" c1ContentA) ∧
    (∃ s', dget (trackFileClaims "off" c1s2 "b" "f.md" c1ContentA "r3" "t3").state c1IdA =
        some s' ∧ s'.status = ClaimStatus.active) :=
  ⟨⟨by rfl, by rfl, by decide⟩,
   c1_amended_resurrection "off" c1s2 "b" "f.md" c1ContentA "r3" "t3" c1IdA c1Sx
     (by rfl) (by rfl) (by decide)⟩

/-- Warning events never pass a filter for another event type. -/
theorem warnEvents_filter_ne (enf : String) (ws : List String)
    (rid now bn fp ty : String) (hty : ty ≠ "provenance_warning") :
    ((if enf ≠ "off" then
        ws.map (fun w => mkEvent "provenance_warning" rid now bn
          Option.none Option.none (some fp) [("message", PayloadVal.str w)])
      else []).filter (fun e => e.event_type == ty)) = [] := by
  by_cases henf : enf ≠ "off"
  · rw [if_pos henf]
    induction ws with
    | nil => rfl
    | cons w rest ih =>
        simp only [List.map_cons, List.filter_cons]
        have : ((mkEvent "provenance_warning" rid now bn Option.none Option.none
            (some fp) [("message", PayloadVal.str w)]).event_type == ty) = false := by
          simp [mkEvent]
          exact fun he => hty he.symm
        rw [this]
        exact ih
  · rw [if_neg henf]
    rfl

/-- C3: the supersession scenario.  If the file's active claims are exactly
`{A, B}` and extraction yields exactly claims with ids `A` and `C` (`C`
new), then `track_file_claims` returns counts created = 1, unchanged = 1,
superseded = 1; `B`'s snapshot becomes superseded with updated
timestamp/run; `C` is inserted as the freshly extracted active snapshot;
`A`'s snapshot is refreshed in place preserving `revision_id`, `created_at`
and `created_by_run` while `updated_at`/`updated_by_run` move to this run;
and exactly one `claim_superseded` event is appended, referencing `B`. -/
theorem c3_supersession_scenario (enforcement : String) (st : ClaimDict)
    (bn fp content runId now A B C : String) (sa sb cA cC : ClaimSnapshot)
    (hwf : DictWF st)
    (hfilter : st.filter (fun e =>
      e.2.file_path == fp && e.2.status == ClaimStatus.active) = [(A, sa), (B, sb)])
    (hAB : A ≠ B) (hAC : A ≠ C) (hBC : B ≠ C)
    (hExt : (extractClaimSnapshots bn fp content runId now).1 = [cA, cC])
    (hcA : cA.claim_id = A) (hcC : cC.claim_id = C)
    (hCnew : dget st C = Option.none) :
    (trackFileClaims enforcement st bn fp content runId now).counts.created = 1 ∧
    (trackFileClaims enforcement st bn fp content runId now).counts.unchanged = 1 ∧
    (trackFileClaims enforcement st bn fp content runId now).counts.superseded = 1 ∧
    dget (trackFileClaims enforcement st bn fp content runId now).state B =
      some { sb with status := ClaimStatus.superseded, updated_at := now,
                     updated_by_run := runId } ∧
    dget (trackFileClaims enforcement st bn fp content runId now).state C = some cC ∧
    dget (trackFileClaims enforcement st bn fp content runId now).state A =
      some { cA with revision_id := sa.revision_id, created_at := sa.created_at,
                     created_by_run := sa.created_by_run, updated_at := now,
                     updated_by_run := runId } ∧
    ((trackFileClaims enforcement st bn fp content runId now).events.filter
      (fun e => e.event_type == "claim_superseded")).map (·.claim_id) = [some B] := by
  have hmemA : (A, sa) ∈ st.filter (fun e =>
      e.2.file_path == fp && e.2.status == ClaimStatus.active) := by
    rw [hfilter]; exact List.mem_cons_self _ _
  have hmemB : (B, sb) ∈ st.filter (fun e =>
      e.2.file_path == fp && e.2.status == ClaimStatus.active) := by
    rw [hfilter]; exact List.mem_cons_of_mem _ (List.mem_cons_self _ _)
  have hA : dget st A = some sa :=
    dget_eq_of_mem st A sa hwf (List.mem_filter.mp hmemA).1
  have hsaact : sa.status = ClaimStatus.active := by
    have := (Bool.and_eq_true _ _ |>.mp (List.mem_filter.mp hmemA).2).2
    simpa using this
  have hae1 : activeExisting (dget st A) = some sa := by
    rw [hA]; simp [activeExisting, hsaact]
  have hae2 : activeExisting (dget (dset st A
      { cA with claim_id := A, revision_id := sa.revision_id, created_at := sa.created_at,
                created_by_run := sa.created_by_run, updated_at := now,
                updated_by_run := runId }) C) = Option.none := by
    rw [dget_dset_ne st A C _ (Ne.symm hAC), hCnew]
    rfl
  have hmem1 : A ∈ [A, C] := List.mem_cons_self _ _
  have hmem2 : B ∉ [A, C] := by
    simp only [List.mem_cons, List.mem_singleton, List.not_mem_nil]
    push_neg
    exact ⟨Ne.symm hAB, hBC, fun h => h.elim⟩
  simp only [trackFileClaims, hExt, List.map_cons, List.map_nil, hcA, hcC, hfilter]
  simp only [createdLoop, hcA, hcC, hae1]
  simp only [createdLoop, hcA, hcC, hae2]
  simp only [supersedeLoop, if_pos hmem1, if_neg hmem2]
  refine ⟨by trivial, by trivial, by trivial, ?_, ?_, ?_, ?_⟩
  · exact dget_dset_self _ _ _
  · rw [dget_dset_ne _ _ _ _ (Ne.symm hBC)]
    exact dget_dset_self _ _ _
  · rw [dget_dset_ne _ _ _ _ hAB, dget_dset_ne _ _ _ _ hAC]
    exact dget_dset_self _ _ _
  · rw [List.filter_append, List.filter_append,
        warnEvents_filter_ne enforcement _ runId now bn fp "claim_superseded" (by decide)]
    have h1 : ((mkEvent "claim_created" runId now bn (some C) (some cC.revision_id) (some fp)
        [("claim_text", PayloadVal.str cC.claim_text),
         ("source_locator", PayloadVal.str cC.source_locator),
         ("user_override", PayloadVal.boolean cC.user_override)]).event_type ==
        "claim_superseded") = false := by
      simp [mkEvent]
    have h2 : ((mkEvent "claim_superseded" runId now bn (some B) (some sb.revision_id) (some fp)
        [("reason", PayloadVal.str "not_present_in_latest_file_revision")]).event_type ==
        "claim_superseded") = true := by
      simp [mkEvent]
    simp only [List.filter_cons, h1, h2, List.filter_nil, Bool.false_eq_true, if_false,
               if_true, List.append_nil, List.nil_append, List.map_cons, List.map_nil]
    simp [mkEvent]

/-- Content whose extraction yields the claims alpha and beta. -/
def c3ContentAB : String :=
  "- Claim alpha includes timeline details\n- Claim beta includes timeline details\n"

/-- Content whose extraction yields the claims alpha and gamma. -/
def c3ContentAC : String :=
  "- Claim alpha includes timeline details\n- Claim gamma includes timeline details\n"

/-- The snapshot document with the alpha and beta claims active. -/
def c3St : ClaimDict :=
  (trackFileClaims "off" [] "b" "facts/sample.md" c3ContentAB "r0" "t0").state

/-- The extraction of the alpha/gamma content for the supersession run. -/
def c3Ext : List ClaimSnapshot :=
  (extractClaimSnapshots "b" "facts/sample.md" c3ContentAC "r1" "t1").1

def c3cA : ClaimSnapshot := c3Ext.getD 0 blankSnap
def c3cC : ClaimSnapshot := c3Ext.getD 1 blankSnap
def c3A : String := c3cA.claim_id
def c3C : String := c3cC.claim_id
def c3B : String :=
  ((extractClaimSnapshots "b" "facts/sample.md" c3ContentAB "r0" "t0").1.getD 1 blankSnap).claim_id
def c3sa : ClaimSnapshot := (dget c3St c3A).getD blankSnap
def c3sb : ClaimSnapshot := (dget c3St c3B).getD blankSnap

/-- C3 (witness): the supersession theorem applied to a concrete store whose
file has exactly the alpha and beta claims active, re-extracted as alpha and
gamma. -/
theorem c3_supersession_witness :
    (DictWF c3St ∧
     c3St.filter (fun e => e.2.file_path == "facts/sample.md" &&
       e.2.status == ClaimStatus.active) = [(c3A, c3sa), (c3B, c3sb)] ∧
     c3A ≠ c3B ∧ c3A ≠ c3C ∧ c3B ≠ c3C ∧
     (extractClaimSnapshots "b" "facts/sample.md" c3ContentAC "r1" "t1").1 = [c3cA, c3cC] ∧
     c3cA.claim_id = c3A ∧ c3cC.claim_id = c3C ∧
     dget c3St c3C = Option.none) ∧
    ((trackFileClaims "off" c3St "b" "facts/sample.md" c3ContentAC "r1" "t1").counts.created = 1 ∧
     (trackFileClaims "off" c3St "b" "facts/sample.md" c3ContentAC "r1" "t1").counts.unchanged = 1 ∧
     (trackFileClaims "off" c3St "b" "facts/sample.md" c3ContentAC "r1" "t1").counts.superseded = 1 ∧
     dget (trackFileClaims "off" c3St "b" "facts/sample.md" c3ContentAC "r1" "t1").state c3B =
       some { c3sb with status := ClaimStatus.superseded, updated_at := "t1",
                        updated_by_run := "r1" } ∧
     dget (trackFileClaims "off" c3St "b" "facts/sample.md" c3ContentAC "r1" "t1").state c3C =
       some c3cC ∧
     dget (trackFileClaims "off" c3St "b" "facts/sample.md" c3ContentAC "r1" "t1").state c3A =
       some { c3cA with revision_id := c3sa.revision_id, created_at := c3sa.created_at,
                        created_by_run := c3sa.created_by_run, updated_at := "t1",
                        updated_by_run := "r1" } ∧
     ((trackFileClaims "off" c3St "b" "facts/sample.md" c3ContentAC "r1" "t1").events.filter
       (fun e => e.event_type == "claim_superseded")).map (·.claim_id) = [some c3B]) :=
  ⟨⟨by decide, by decide, by decide, by decide, by decide, by decide, rfl, rfl, by decide⟩,
   c3_supersession_scenario "off" c3St "b" "facts/sample.md" c3ContentAC "r1" "t1"
     c3A c3B c3C c3sa c3sb c3cA c3cC
     (by decide) (by decide) (by decide) (by decide) (by decide) (by decide)
     rfl rfl (by decide)⟩

/-- C2 (witness): the idempotence theorem applied to the empty store and a
concrete bullet-claim content. -/
theorem c2_reextraction_idempotent_witness :
    DictWF ([] : ClaimDict) ∧
    ((trackFileClaims "off" (trackFileClaims "off" [] "b" "f.md"
        "- Sample reactor claims persist across runs\n" "r1" "t1").state
        "b" "f.md" "- Sample reactor claims persist across runs\n" "r2" "t2").counts.created = 0 ∧
     (trackFileClaims "off" (trackFileClaims "off" [] "b" "f.md"
        "- Sample reactor claims persist across runs\n" "r1" "t1").state
        "b" "f.md" "- Sample reactor claims persist across runs\n" "r2" "t2").counts.superseded = 0 ∧
     (trackFileClaims "off" (trackFileClaims "off" [] "b" "f.md"
        "- Sample reactor claims persist across runs\n" "r1" "t1").state
        "b" "f.md" "- Sample reactor claims persist across runs\n" "r2" "t2").counts.unchanged =
       (extractClaimSnapshots "b" "f.md" "- Sample reactor claims persist across runs\n"
         "r2" "t2").1.length ∧
     (∀ e ∈ (trackFileClaims "off" (trackFileClaims "off" [] "b" "f.md"
        "- Sample reactor claims persist across runs\n" "r1" "t1").state
        "b" "f.md" "- Sample reactor claims persist across runs\n" "r2" "t2").events,
       e.event_type ≠ "claim_created" ∧ e.event_type ≠ "claim_superseded") ∧
     dkeys (trackFileClaims "off" (trackFileClaims "off" [] "b" "f.md"
        "- Sample reactor claims persist across runs\n" "r1" "t1").state
        "b" "f.md" "- Sample reactor claims persist across runs\n" "r2" "t2").state =
       dkeys (trackFileClaims "off" [] "b" "f.md"
        "- Sample reactor claims persist across runs\n" "r1" "t1").state ∧
     (∀ id s, dget (trackFileClaims "off" [] "b" "f.md"
        "- Sample reactor claims persist across runs\n" "r1" "t1").state id = some s →
       ∃ s', dget (trackFileClaims "off" (trackFileClaims "off" [] "b" "f.md"
          "- Sample reactor claims persist across runs\n" "r1" "t1").state
          "b" "f.md" "- Sample reactor claims persist across runs\n" "r2" "t2").state id =
            some s' ∧ refreshKept s s')) :=
  ⟨by decide,
   c2_reextraction_idempotent "off" [] (by decide) "b" "f.md"
     "- Sample reactor claims persist across runs\n" "r1" "t1" "r2" "t2"⟩

/-- C4: strict provenance enforcement raises the first collected warning as
the failure message, and only after the snapshot has been persisted: the
returned error is exactly the head of the extraction's warning list, while
every extracted claim is already visible through `list_claims` on the
persisted state (write-before-raise). -/
theorem c4_strict_write_before_raise (st : ClaimDict) (bn fp content runId now w : String)
    (ws : List String)
    (hw : (extractClaimSnapshots bn fp content runId now).2 = w :: ws)
    (hsize : (trackFileClaims "strict" st bn fp content runId now).state.length ≤ 100) :
    (trackFileClaims "strict" st bn fp content runId now).error = some w ∧
    ∀ c ∈ (extractClaimSnapshots bn fp content runId now).1,
      ∃ s', s' ∈ listClaims (trackFileClaims "strict" st bn fp content runId now).state
          Option.none Option.none Option.none Option.none 100 0 ∧
        s'.claim_id = c.claim_id := by
  constructor
  · simp only [trackFileClaims, if_pos rfl, hw]
    rfl
  · intro c hc
    have hid : c.claim_id ∈ extractedIds bn fp content := by
      rw [← extract_ids_eq bn fp content runId now]
      exact List.mem_map_of_mem _ hc
    obtain ⟨s, hs, _, _, hcid⟩ :=
      track_active_ids "strict" st bn fp content runId now c.claim_id hid
    have hmem : (c.claim_id, s) ∈ (trackFileClaims "strict" st bn fp content runId now).state :=
      mem_of_dget _ _ _ hs
    have hval : s ∈ (trackFileClaims "strict" st bn fp content runId now).state.map (·.2) :=
      List.mem_map_of_mem _ hmem
    refine ⟨s, ?_, hcid⟩
    simp only [listClaims]
    have hlen : (stableSort (fun a b => ! decide (a.updated_at < b.updated_at))
        ((trackFileClaims "strict" st bn fp content runId now).state.map (·.2))).length ≤ 100 := by
      rw [length_stableSort, List.length_map]
      exact hsize
    rw [show ((max (100 : Int) 0).toNat) = 100 by decide, List.drop_zero,
        List.take_of_length_le hlen]
    exact (mem_stableSort _ _ _).mpr hval

/-- C4 (witness): a quoteless bullet claim under strict enforcement — the
raised message is the missing-quote warning (which contains "Missing direct
quote"), and `list_claims` on the persisted state still returns the claim. -/
theorem c4_strict_write_before_raise_witness :
    ((extractClaimSnapshots "b" "f.md" "- Alpha reactor subsystem converges rapidly\n"
        "r1" "t1").2 =
      "Missing direct quote for claim: Alpha reactor subsystem converges rapidly" ::
        ["Missing source locator for claim: Alpha reactor subsystem converges rapidly"] ∧
     (trackFileClaims "strict" [] "b" "f.md" "- Alpha reactor subsystem converges rapidly\n"
        "r1" "t1").state.length ≤ 100 ∧
     strContains "Missing direct quote for claim: Alpha reactor subsystem converges rapidly"
       "Missing direct quote" = true) ∧
    ((trackFileClaims "strict" [] "b" "f.md" "- Alpha reactor subsystem converges rapidly\n"
        "r1" "t1").error =
      some "Missing direct quote for claim: Alpha reactor subsystem converges rapidly" ∧
     ∀ c ∈ (extractClaimSnapshots "b" "f.md" "- Alpha reactor subsystem converges rapidly\n"
        "r1" "t1").1,
       ∃ s', s' ∈ listClaims (trackFileClaims "strict" [] "b" "f.md"
           "- Alpha reactor subsystem converges rapidly\n" "r1" "t1").state
           Option.none Option.none Option.none Option.none 100 0 ∧
         s'.claim_id = c.claim_id) :=
  ⟨⟨by decide, by decide, by decide⟩,
   c4_strict_write_before_raise [] "b" "f.md" "- Alpha reactor subsystem converges rapidly\n"
     "r1" "t1"
     "Missing direct quote for claim: Alpha reactor subsystem converges rapidly"
     ["Missing source locator for claim: Alpha reactor subsystem converges rapidly"]
     (by decide) (by decide)⟩

/-- C5: for every question, answer and source set, `build_query_audit`
returns a trace completeness whose `linked_statements` never exceeds
`total_statements` and whose `completeness_ratio` lies in [0, 1]; when the
answer splits into zero statements (in particular, the empty answer) the
ratio is exactly 0 and no division is performed. -/
theorem c5_completeness_ratio_bounds (st : ClaimDict) (bn question : String)
    (result : QueryResult) (defaultSources : List String) (runId now : String) :
    (buildQueryAudit st bn question result defaultSources runId now).1.trace_completeness.linked_statements ≤
      (buildQueryAudit st bn question result defaultSources runId now).1.trace_completeness.total_statements ∧
    0 ≤ (buildQueryAudit st bn question result defaultSources runId now).1.trace_completeness.completeness_ratio ∧
    (buildQueryAudit st bn question result defaultSources runId now).1.trace_completeness.completeness_ratio ≤ 1 ∧
    ((buildQueryAudit st bn question result defaultSources runId now).1.trace_completeness.total_statements = 0 →
      (buildQueryAudit st bn question result defaultSources runId now).1.trace_completeness.completeness_ratio = 0) ∧
    (result.answer = "" →
      (buildQueryAudit st bn question result defaultSources runId now).1.trace_completeness.total_statements = 0 ∧
      (buildQueryAudit st bn question result defaultSources runId now).1.trace_completeness.completeness_ratio = 0) := by
  simp only [buildQueryAudit]
  refine ⟨List.countP_le_length _, ?_, ?_, ?_, ?_⟩
  · by_cases h : 0 < (answerStatements result.answer).length
    · rw [if_pos h]
      refine (pyRound4_bounds _ ?_ ?_).1
      · exact div_nonneg (Nat.cast_nonneg _) (Nat.cast_nonneg _)
      · rw [div_le_one (by exact_mod_cast h)]
        exact_mod_cast List.countP_le_length _
    · rw [if_neg h]
  · by_cases h : 0 < (answerStatements result.answer).length
    · rw [if_pos h]
      refine (pyRound4_bounds _ ?_ ?_).2
      · exact div_nonneg (Nat.cast_nonneg _) (Nat.cast_nonneg _)
      · rw [div_le_one (by exact_mod_cast h)]
        exact_mod_cast List.countP_le_length _
    · rw [if_neg h]
      norm_num
  · intro h0
    rw [if_neg (by omega)]
  · intro hempty
    have hnil : answerStatements result.answer = [] := by
      rw [hempty]
      rfl
    rw [hnil]
    exact ⟨rfl, by rw [if_neg (by simp)]⟩

/-- C5 (witness): the bounds theorem applied to the empty answer — zero
statements and ratio exactly 0. -/
theorem c5_completeness_ratio_bounds_witness :
    (buildQueryAudit [] "b" "q" ⟨"", [], Confidence.medium⟩ [] "r" "t").1.trace_completeness.total_statements = 0 ∧
    (buildQueryAudit [] "b" "q" ⟨"", [], Confidence.medium⟩ [] "r" "t").1.trace_completeness.completeness_ratio = 0 :=
  (c5_completeness_ratio_bounds [] "b" "q" ⟨"", [], Confidence.medium⟩ [] "r" "t").2.2.2.2 rfl

/-- A one-claim store entry for the C6 environment. -/
def c6Snap : ClaimSnapshot :=
  { blankSnap with claim_id := "clm_x", file_path := "facts/a.md",
                   claim_text := "Reactor alpha converges" }

/-- An environment whose knowledge base has an active claim ledger but whose
file selection returns no files. -/
def c6Env : OrchEnv :=
  { brainExists := fun _ => true,
    claimsVersioningEnabled := true,
    brainClaims := fun _ => [("clm_x", c6Snap)],
    selectFiles := fun _ _ => Except.ok ⟨[], "nothing relevant"⟩,
    answerWithAudit := fun _ _ _ => Except.error "unused",
    answerPlain := fun _ _ _ => Except.error "unused",
    generateSynthesis := fun _ _ => Except.ok ⟨"synth", Confidence.medium⟩,
    generateConflicts := fun _ _ => Except.ok ⟨[]⟩ }

/-- C6 (counterexample): the "no relevant files" placeholder does NOT set
`trace_degraded = true` unconditionally — for a brain with an active claim
ledger the placeholder carries `trace_degraded = false`. -/
theorem c6_counterexample_placeholder_not_degraded :
    brainHasClaimMetadata c6Env "a" = true ∧
    (collectOneBrain c6Env "What does alpha do?" 12 "a").toOption.map
      (fun r => r.1.result.trace_degraded) = some false := by
  decide

/-- Monadic helpers: binding a successful `Except` is application. -/
theorem except_bind_ok {ε α β : Type} (a : α) (f : α → Except ε β) :
    (Except.ok a >>= f : Except ε β) = f a := rfl

/-- C6 (amended): when file selection returns no files, `_collect_per_brain`
emits the placeholder result with answer "No relevant files found for this
brain.", confidence none, empty sources and claim trace, completeness ratio
0 — and `trace_degraded = not has_claims`, i.e. true exactly when the brain
lacks an active claim ledger. -/
theorem c6_amended_empty_selection_placeholder (env : OrchEnv) (question : String)
    (maxFilesPerBrain : Int) (name : String) (sel : FileSelection)
    (hmax : 0 < maxFilesPerBrain)
    (hsel : env.selectFiles question name = Except.ok sel)
    (hempty : sel.files = []) :
    collectOneBrain env question maxFilesPerBrain name = Except.ok
      (⟨{ brain_name := name,
          answer_excerpt := "No relevant files found for this brain.",
          confidence := Confidence.none, sources := [], claim_trace := [],
          trace_degraded := ! brainHasClaimMetadata env name,
          trace_completeness_ratio := 0 }, []⟩, []) := by
  have hneg : ¬ (maxFilesPerBrain < ((0 : Nat) : Int)) := by
    simp
    omega
  unfold collectOneBrain
  rw [hsel, except_bind_ok]
  simp only [hempty, List.length_nil, Nat.cast_zero, List.take_nil, ite_self]
  rw [if_pos (show ([] : List String).isEmpty = true from rfl),
      if_neg (show ¬ maxFilesPerBrain < (0 : Int) from by omega)]
  rfl

/-- C6 (witness): the amended placeholder theorem applied to `c6Env`, whose
brain has claim metadata, so the placeholder is not degraded. -/
theorem c6_amended_witness :
    ((0 : Int) < 12 ∧
     c6Env.selectFiles "What does alpha do?" "a" = Except.ok ⟨[], "nothing relevant"⟩ ∧
     (⟨[], "nothing relevant"⟩ : FileSelection).files = []) ∧
    collectOneBrain c6Env "What does alpha do?" 12 "a" = Except.ok
      (⟨{ brain_name := "a",
          answer_excerpt := "No relevant files found for this brain.",
          confidence := Confidence.none, sources := [], claim_trace := [],
          trace_degraded := ! brainHasClaimMetadata c6Env "a",
          trace_completeness_ratio := 0 }, []⟩, []) :=
  ⟨⟨by decide, rfl, rfl⟩,
   c6_amended_empty_selection_placeholder c6Env "What does alpha do?" 12 "a"
     ⟨[], "nothing relevant"⟩ (by decide) rfl rfl⟩

/-- Elements already accumulated survive the rest of the candidate loop. -/
theorem foldl_scorePairsStep_superset (B : List ClaimTraceItem) :
    ∀ (A : List ClaimTraceItem) (init : List (Nat × ClaimTraceItem × ClaimTraceItem))
      (y : Nat × ClaimTraceItem × ClaimTraceItem),
      y ∈ init → y ∈ A.foldl (scorePairsStep B) init
  | [], _, _, h => h
  | ca :: rest, init, y, h => by
      simp only [List.foldl_cons]
      exact foldl_scorePairsStep_superset B rest _ y
        (by simp only [scorePairsStep]; exact List.mem_append_left _ h)

/-- A pair produced for some element of the outer list is in the loop`s
result. -/
theorem mem_foldl_scorePairsStep (B : List ClaimTraceItem) :
    ∀ (A : List ClaimTraceItem) (init : List (Nat × ClaimTraceItem × ClaimTraceItem))
      (ca : ClaimTraceItem) (y : Nat × ClaimTraceItem × ClaimTraceItem),
      ca ∈ A → y ∈ scorePairsStep B [] ca → y ∈ A.foldl (scorePairsStep B) init
  | [], _, _, _, h, _ => by simp at h
  | c0 :: rest, init, ca, y, hmem, hy => by
      simp only [List.foldl_cons]
      rcases List.mem_cons.mp hmem with rfl | hrest
      · apply foldl_scorePairsStep_superset B rest _ y
        simp only [scorePairsStep, List.nil_append] at hy
        simp only [scorePairsStep]
        exact List.mem_append_right _ hy
      · exact mem_foldl_scorePairsStep B rest _ ca y hrest hy

/-- A trace item with the given id and text. -/
def oneClaimItem (cid text : String) : ClaimTraceItem :=
  { claim_id := cid, file_path := "facts/a.md", claim_text := text,
    evidence_quote := "", source_locator := "unknown",
    confidence := Confidence.medium, user_override := false }

/-- A per-brain result holding exactly one traced claim with the given text. -/
def oneClaimBrain (name cid text : String) : InternalPerBrain :=
  ⟨{ brain_name := name, answer_excerpt := "", confidence := Confidence.medium,
     sources := [], claim_trace := [], trace_degraded := false,
     trace_completeness_ratio := 0 },
   [oneClaimItem cid text]⟩

/-- C7 (counterexample): "Policy iteration converges" and "Policy
convergence is guaranteed" share only the token "policy" (overlap 1 < 2), so
the candidate construction produces no pair at all for these two sources. -/
theorem c7_counterexample_policy_pair_no_candidate :
    tokOverlap (pyTokenize "Policy iteration converges")
      (pyTokenize "Policy convergence is guaranteed") = 1 ∧
    buildConflictCandidates
      [oneClaimBrain "a" "clm_a" "Policy iteration converges",
       oneClaimBrain "b" "clm_b" "Policy convergence is guaranteed"] = [] := by
  decide

/-- C7 (amended): for two per-source results holding claims with distinct
ids, non-identical normalized text, and at least 2 shared normalized tokens
of length ≥ 4, the conflict-candidate construction produces at least one
candidate pair (the quoted "converges"/"convergence" pair shares only
"policy" and yields none). -/
theorem c7_amended_overlap2_candidate (ia ib : InternalPerBrain) (ca cb : ClaimTraceItem)
    (ha : ca ∈ ia.claim_trace_for_conflicts.take 8)
    (hb : cb ∈ ib.claim_trace_for_conflicts.take 8)
    (hid : ca.claim_id ≠ cb.claim_id)
    (hov : 2 ≤ tokOverlap (pyTokenize ca.claim_text) (pyTokenize cb.claim_text))
    (htext : pyLower (pyStrip ca.claim_text) ≠ pyLower (pyStrip cb.claim_text)) :
    buildConflictCandidates [ia, ib] ≠ [] := by
  have h1 : (ca.claim_id == cb.claim_id) = false := by
    simp [hid]
  have h3 : (pyLower (pyStrip ca.claim_text) == pyLower (pyStrip cb.claim_text)) = false := by
    simp [htext]
  have hyin : (tokOverlap (pyTokenize ca.claim_text) (pyTokenize cb.claim_text), ca, cb) ∈
      scorePairs (ia.claim_trace_for_conflicts.take 8)
        (ib.claim_trace_for_conflicts.take 8) := by
    apply mem_foldl_scorePairsStep _ _ _ ca _ ha
    simp only [scorePairsStep, List.nil_append]
    apply List.mem_filterMap.mpr
    refine ⟨cb, hb, ?_⟩
    rw [h1]
    simp only [Bool.false_eq_true, if_false]
    rw [if_neg (by omega), h3]
    simp only [Bool.false_eq_true, if_false]
  intro hcand
  have hAne : (ia.claim_trace_for_conflicts.take 8).isEmpty = false :=
    List.isEmpty_eq_false.mpr (List.ne_nil_of_mem ha)
  have hBne : (ib.claim_trace_for_conflicts.take 8).isEmpty = false :=
    List.isEmpty_eq_false.mpr (List.ne_nil_of_mem hb)
  unfold buildConflictCandidates at hcand
  simp only [pairCombos, List.map_cons, List.map_nil, List.foldl_cons, List.foldl_nil,
             List.nil_append, List.append_nil, hAne, hBne, Bool.false_eq_true, or_self,
             if_false] at hcand
  have hlen := congrArg List.length hcand
  rw [List.length_map, List.enumFrom_length, List.length_take, length_stableSort,
      List.length_nil] at hlen
  have hpos : 0 < (scorePairs (ia.claim_trace_for_conflicts.take 8)
      (ib.claim_trace_for_conflicts.take 8)).length := List.length_pos_of_mem hyin
  omega

/-- C7 (witness): "Policy iteration converges" vs "Policy iteration is
guaranteed" share the two tokens "policy" and "iteration", so a candidate
pair is produced. -/
theorem c7_amended_witness :
    ((oneClaimBrain "a" "clm_a" "Policy iteration converges").claim_trace_for_conflicts.take 8 ≠ [] ∧
     2 ≤ tokOverlap (pyTokenize "Policy iteration converges")
       (pyTokenize "Policy iteration is guaranteed")) ∧
    buildConflictCandidates
      [oneClaimBrain "a" "clm_a" "Policy iteration converges",
       oneClaimBrain "b" "clm_b" "Policy iteration is guaranteed"] ≠ [] :=
  ⟨⟨by decide, by decide⟩,
   c7_amended_overlap2_candidate
     (oneClaimBrain "a" "clm_a" "Policy iteration converges")
     (oneClaimBrain "b" "clm_b" "Policy iteration is guaranteed")
     (oneClaimItem "clm_a" "Policy iteration converges")
     (oneClaimItem "clm_b" "Policy iteration is guaranteed")
     (by decide) (by decide) (by decide) (by decide) (by decide)⟩

/-! ### C8: the "Claim:" label -/

/-- A body whose only labelled line uses a plain `Claim:` prefix, next to one
bullet claim. -/
def c8Body : String :=
  "- Bullet claims appear here too\nClaim: Reactor subsystems converge rapidly under load"

/-- C8 (counterexample): `_extract_claim_lines` only recognises the bold
`**Claim**:` label, not a plain `Claim:` label.  On a body with a bullet item
and a plain `Claim: <text>` line, only the bullet text is extracted: neither
the labelled text nor the labelled line appears among the candidates. -/
theorem c8_counterexample_plain_claim_label :
    extractClaimLines c8Body = ["Bullet claims appear here too"] ∧
    "Reactor subsystems converge rapidly under load" ∉ extractClaimLines c8Body ∧
    "Claim: Reactor subsystems converge rapidly under load" ∉ extractClaimLines c8Body := by
  refine ⟨rfl, ?_, ?_⟩ <;> decide

/-- C8 (amended): the extractor emits bulleted/numbered list items and lines
beginning with the bold `**Claim**:` label; for a body containing a bullet item
and a `**Claim**: <text>` line, both the bullet text and the labelled text
(without the label) appear among the extracted candidate claims. -/
theorem c8_amended_bold_claim_label :
    extractClaimLines
        "- Bullet claims appear here too\n**Claim**: The reactor subsystem converges rapidly."
      = ["Bullet claims appear here too", "The reactor subsystem converges rapidly."] := by
  rfl

/-! ### C9: input validation and the not-found check -/

/-- An environment in which every brain except "zz" exists and all
collaborator calls that this scenario reaches succeed with fixed answers. -/
def c9Env : OrchEnv :=
  { brainExists := fun n => ! (n == "zz"),
    claimsVersioningEnabled := false,
    brainClaims := fun _ => [],
    selectFiles := fun _ _ => Except.ok { files := [], reasoning := "none" },
    answerWithAudit := fun _ _ _ => Except.error "not called",
    answerPlain := fun _ _ _ => Except.error "not called",
    generateSynthesis := fun _ _ =>
      Except.ok { answer := "combined", confidence := Confidence.low },
    generateConflicts := fun _ _ => Except.error "not called" }

/-- C9 (counterexample): requesting six brains with max_brains = 5 where the
nonexistent brain "zz" is the sixth deduplicated name: the list is truncated
to five names before the existence check, so the query succeeds and no
not-found error mentioning "zz" is raised, although "zz" was requested and
does not exist. -/
theorem c9_counterexample_missing_brain_beyond_cap :
    c9Env.brainExists "zz" = false ∧
    (orchestrateCore c9Env "q" ["a1", "a2", "a3", "a4", "a5", "zz"]
      false 5 3).toOption.isSome = true :=
  ⟨rfl, rfl⟩

/-- C9 (amended): `orchestrate_multi_brain_query` raises an input-validation
error when the question is blank, the brain-name list is empty, a limit is
non-positive, or the trimmed deduplicated name list is empty; when the
validations pass, it raises a not-found error listing every missing name
among the first max_brains deduplicated names (requested names dropped by the
truncation are not checked for existence). -/
theorem c9_amended_validation_and_not_found (env : OrchEnv) (question : String)
    (brainNames : List String) (ic : Bool) (mb mf : Int) :
    (pyStrip question = "" ∨ brainNames = [] ∨ mb ≤ 0 ∨ mf ≤ 0 ∨
        ((brainNames.map pyStrip).filter (· ≠ "")).foldl insertUnique [] = [] →
      ∃ msg, orchestrateCore env question brainNames ic mb mf =
        Except.error (OrchError.inputError msg)) ∧
    (pyStrip question ≠ "" → brainNames ≠ [] → ¬ (mb ≤ 0 ∨ mf ≤ 0) →
      ((brainNames.map pyStrip).filter (· ≠ "")).foldl insertUnique [] ≠ [] →
      ((if mb < ((((brainNames.map pyStrip).filter (· ≠ "")).foldl insertUnique []).length : Int)
          then (((brainNames.map pyStrip).filter (· ≠ "")).foldl insertUnique []).take mb.toNat
          else ((brainNames.map pyStrip).filter (· ≠ "")).foldl insertUnique []).filter
        (fun n => ! env.brainExists n)) ≠ [] →
      orchestrateCore env question brainNames ic mb mf =
        Except.error (OrchError.brainNotFound
          ((if mb < ((((brainNames.map pyStrip).filter (· ≠ "")).foldl insertUnique []).length : Int)
              then (((brainNames.map pyStrip).filter (· ≠ "")).foldl insertUnique []).take mb.toNat
              else ((brainNames.map pyStrip).filter (· ≠ "")).foldl insertUnique []).filter
            (fun n => ! env.brainExists n)))) := by
  constructor
  · intro h
    by_cases h1 : pyStrip question = ""
    · exact ⟨"Question is required.", by unfold orchestrateCore; rw [if_pos h1]⟩
    by_cases h2 : brainNames.isEmpty
    · exact ⟨"At least one brain name is required.", by
        unfold orchestrateCore; rw [if_neg h1, if_pos h2]⟩
    by_cases h3 : mb ≤ 0 ∨ mf ≤ 0
    · exact ⟨"max_brains and max_files_per_brain must be > 0.", by
        unfold orchestrateCore; rw [if_neg h1, if_neg h2, if_pos h3]⟩
    by_cases h4 : (((brainNames.map pyStrip).filter (· ≠ "")).foldl insertUnique []).isEmpty
    · refine ⟨"No valid brain names provided.", ?_⟩
      simp only [orchestrateCore, if_neg h1, if_neg h2, if_neg h3]
      rw [if_pos h4]
    · rcases h with h | h | h | h | h
      · exact absurd h h1
      · exact absurd (List.isEmpty_iff.mpr h) h2
      · exact absurd (Or.inl h) h3
      · exact absurd (Or.inr h) h3
      · exact absurd (List.isEmpty_iff.mpr h) h4
  · intro h1 h2 h3 h4 h5
    have h2b : ¬ (brainNames.isEmpty = true) := fun hc => h2 (List.isEmpty_iff.mp hc)
    have h4b : ¬ ((((brainNames.map pyStrip).filter (· ≠ "")).foldl
        insertUnique []).isEmpty = true) := fun hc => h4 (List.isEmpty_iff.mp hc)
    have h5b : ¬ (((if mb < ((((brainNames.map pyStrip).filter (· ≠ "")).foldl insertUnique []).length : Int)
          then (((brainNames.map pyStrip).filter (· ≠ "")).foldl insertUnique []).take mb.toNat
          else ((brainNames.map pyStrip).filter (· ≠ "")).foldl insertUnique []).filter
        (fun n => ! env.brainExists n)).isEmpty = true) :=
      fun hc => h5 (List.isEmpty_iff.mp hc)
    simp only [orchestrateCore, if_neg h1, if_neg h2b, if_neg h3]
    rw [if_neg h4b, if_pos h5b]

/-- C9 (witness): requesting a nonexistent brain within the cap raises a
not-found error naming exactly it. -/
theorem c9_amended_witness :
    orchestrateCore c9Env "q" ["zz", "a1"] false 5 3 =
      Except.error (OrchError.brainNotFound ["zz"]) :=
  (c9_amended_validation_and_not_found c9Env "q" ["zz", "a1"] false 5 3).2
    (by decide) (by decide) (by decide) (by decide) (by decide)

/-! ### C10: the include_claim_trace flag -/

theorem zeroedPerBrain_ratio_sum (l : List PerBrainResult) :
    ((l.map (fun item => { item with claim_trace := [], trace_completeness_ratio := 0 })).map
      (·.trace_completeness_ratio)).sum = 0 := by
  induction l with
  | nil => rfl
  | cons x xs ih => simpa using ih

theorem summarize_zeroed_ratio (l : List PerBrainResult) :
    (summarizeTraceability (l.map
      (fun item => { item with claim_trace := [], trace_completeness_ratio := 0
        }))).overall_completeness_ratio = 0 := by
  simp only [summarizeTraceability]
  by_cases h : (l.map (fun item =>
      { item with claim_trace := [], trace_completeness_ratio := 0 })).isEmpty = true
  · rw [if_neg (not_not_intro h)]
  · rw [if_pos h, zeroedPerBrain_ratio_sum, zero_div, pyRound4_zero]

theorem zeroedPerBrain_filter_length (l : List PerBrainResult) :
    ((l.map (fun item => { item with claim_trace := [], trace_completeness_ratio := 0 })).filter
      (fun item => ! item.trace_degraded)).length =
    (l.filter (fun item => ! item.trace_degraded)).length := by
  induction l with
  | nil => rfl
  | cons x xs ih => by_cases h : x.trace_degraded = true <;> simp [List.filter_cons, h, ih]

theorem zeroedPerBrain_degraded_map (l : List PerBrainResult) :
    (l.map (fun item => { item with claim_trace := [], trace_completeness_ratio := 0 })).map
      (·.trace_degraded) = l.map (·.trace_degraded) := by
  induction l with
  | nil => rfl
  | cons x xs ih => simp [ih]

/-- C10: with include_claim_trace = false, every per-brain result in the
returned MultiBrainQueryResult has an empty claim trace and completeness
ratio 0, and the aggregated overall_completeness_ratio is 0 because the
zeroing is applied before `_summarize_traceability`; relative to the same
query with include_claim_trace = true, the trace_degraded flags and the
brains_with_claims count are unchanged. -/
theorem c10_trace_flag_zeroing (env : OrchEnv) (question : String)
    (brainNames : List String) (ic : Bool) (mb mf : Int) (stamp : String)
    (res : MultiBrainQueryResult)
    (hok : orchestrate env question brainNames false ic mb mf stamp = Except.ok res) :
    (∀ item ∈ res.per_brain, item.claim_trace = [] ∧ item.trace_completeness_ratio = 0) ∧
    res.traceability.overall_completeness_ratio = 0 ∧
    (∀ res2 : MultiBrainQueryResult,
      orchestrate env question brainNames true ic mb mf stamp = Except.ok res2 →
      res.per_brain.map (·.trace_degraded) = res2.per_brain.map (·.trace_degraded) ∧
      res.traceability.brains_with_claims = res2.traceability.brains_with_claims) := by
  unfold orchestrate at hok
  cases hcore : orchestrateCore env question brainNames ic mb mf with
  | error e => rw [hcore] at hok; simp at hok
  | ok core =>
      rw [hcore] at hok
      have hok2 : Except.ok (assembleResult core false stamp) =
          (Except.ok res : Except OrchError MultiBrainQueryResult) := hok
      injection hok2 with hres
      subst hres
      refine ⟨?_, ?_, ?_⟩
      · intro item hmem
        have hpb : (assembleResult core false stamp).per_brain =
            (core.perInternal.map (·.result)).map
              (fun item => { item with claim_trace := [], trace_completeness_ratio := 0 }) := rfl
        rw [hpb] at hmem
        obtain ⟨x, hx, hxe⟩ := List.mem_map.mp hmem
        rw [← hxe]
        exact ⟨rfl, rfl⟩
      · have ht : (assembleResult core false stamp).traceability =
            summarizeTraceability ((core.perInternal.map (·.result)).map
              (fun item => { item with claim_trace := [], trace_completeness_ratio := 0 })) := rfl
        rw [ht]
        exact summarize_zeroed_ratio _
      · intro res2 hok2b
        unfold orchestrate at hok2b
        rw [hcore] at hok2b
        have hok3 : Except.ok (assembleResult core true stamp) =
            (Except.ok res2 : Except OrchError MultiBrainQueryResult) := hok2b
        injection hok3 with hres2
        subst hres2
        constructor
        · have h1 : (assembleResult core false stamp).per_brain =
              (core.perInternal.map (·.result)).map
                (fun item => { item with claim_trace := [], trace_completeness_ratio := 0 }) := rfl
          have h2 : (assembleResult core true stamp).per_brain =
              core.perInternal.map (·.result) := rfl
          rw [h1, h2, zeroedPerBrain_degraded_map]
        · have h1 : (assembleResult core false stamp).traceability.brains_with_claims =
              (((core.perInternal.map (·.result)).map
                (fun item => { item with claim_trace := [], trace_completeness_ratio := 0 })).filter
                  (fun item => ! item.trace_degraded)).length := rfl
          have h2 : (assembleResult core true stamp).traceability.brains_with_claims =
              ((core.perInternal.map (·.result)).filter
                (fun item => ! item.trace_degraded)).length := rfl
          rw [h1, h2]
          exact zeroedPerBrain_filter_length _

/-- A claim-trace item returned by the C10 audit oracle. -/
def c10Trace : ClaimTraceItem :=
  { claim_id := "clm_x", file_path := "notes.md", claim_text := "Alpha converges",
    evidence_quote := "Alpha converges", source_locator := "notes.md#L1",
    confidence := .high, user_override := false }

/-- A fully-linked audit result (completeness ratio 1). -/
def c10Audit : QueryAuditResult :=
  { answer := "Alpha converges [notes.md]", sources := ["notes.md"],
    confidence := .high, claim_trace := [c10Trace],
    trace_completeness := { total_statements := 1, linked_statements := 1,
                            completeness_ratio := 1 },
    query_run_id := "query_b1_x" }

/-- C10 environment: one existing brain with an active claim ledger whose
audited answer has completeness ratio 1. -/
def c10Env : OrchEnv :=
  { brainExists := fun _ => true,
    claimsVersioningEnabled := true,
    brainClaims := fun _ => [("clm_x", blankSnap)],
    selectFiles := fun _ _ => Except.ok { files := ["notes.md"], reasoning := "r" },
    answerWithAudit := fun _ _ _ => Except.ok c10Audit,
    answerPlain := fun _ _ _ => Except.error "not called",
    generateSynthesis := fun _ _ =>
      Except.ok { answer := "combined", confidence := Confidence.high },
    generateConflicts := fun _ _ => Except.error "not called" }

/-- The C10 query result with include_claim_trace = false. -/
def c10Res : MultiBrainQueryResult :=
  (orchestrate c10Env "q" ["b1"] false false 5 3 "s").toOption.getD
    { answer := "", confidence := .none, per_brain := [], conflicts := [],
      sources := [],
      traceability := { brains_with_claims := 0, brains_without_claims := 0,
                        overall_completeness_ratio := 0, degraded_brains := [] },
      query_run_id := "", warnings := [] }

/-- C10 (witness): in the concrete environment the audit ratio is 1, yet with
include_claim_trace = false the returned traces are empty and the overall
ratio is 0, while the flag changes neither trace_degraded nor
brains_with_claims. -/
theorem c10_trace_flag_zeroing_witness :
    c10Audit.trace_completeness.completeness_ratio = 1 ∧
    ((∀ item ∈ c10Res.per_brain, item.claim_trace = [] ∧ item.trace_completeness_ratio = 0) ∧
     c10Res.traceability.overall_completeness_ratio = 0 ∧
     (∀ res2 : MultiBrainQueryResult,
       orchestrate c10Env "q" ["b1"] true false 5 3 "s" = Except.ok res2 →
       c10Res.per_brain.map (·.trace_degraded) = res2.per_brain.map (·.trace_degraded) ∧
       c10Res.traceability.brains_with_claims = res2.traceability.brains_with_claims)) :=
  ⟨rfl, c10_trace_flag_zeroing c10Env "q" ["b1"] false 5 3 "s" c10Res rfl⟩

end CBOS
